import Mathlib

/-!
Verification of the FreeLLM-Chat-Conversation command pipeline.

Shallow embedding of `custom_components/freellm_chat/response_cache.py` and
`custom_components/freellm_chat/device_control.py`.  Python strings are Lean
`String`s, `datetime` instants are integer seconds, `OrderedDict` is an
association list whose head is the oldest entry, and the `hashlib.md5`
hexdigest is an abstract function parameter (no claim depends on the
internals of MD5).  Floats are modelled as exact rationals.
-/

namespace FreeLLM

/-! ## Python string primitives -/

/-- Python whitespace as used by `str.strip` (ASCII subset). -/
def isPySpace (c : Char) : Bool :=
  c = ' ' || c = '\t' || c = '\n' || c = '\r' || c = '\x0b' || c = '\x0c'

/-- `str.lower()` (ASCII case folding; the repository's inputs are ASCII). -/
def pyLower (s : String) : String := ⟨s.data.map Char.toLower⟩

/-- `str.strip()`. -/
def pyStrip (s : String) : String :=
  ⟨((s.data.dropWhile isPySpace).reverse.dropWhile isPySpace).reverse⟩

/-- Python slicing `s[:n]`. -/
def pyTake (s : String) (n : Nat) : String := ⟨s.data.take n⟩

/-! ## Association lists with Python-dict / OrderedDict semantics -/

/-- `d[k]` lookup: first binding of the key. -/
def alGet {α : Type} (k : String) : List (String × α) → Option α
  | [] => none
  | (k', v) :: rest => if k' = k then some v else alGet k rest

/-- `d[k] = v`: overwrite in place if present (keeping the position in the
insertion order), otherwise append at the end. -/
def alSet {α : Type} (k : String) (v : α) : List (String × α) → List (String × α)
  | [] => [(k, v)]
  | (k', v') :: rest => if k' = k then (k, v) :: rest else (k', v') :: alSet k v rest

/-- `del d[k]` (first occurrence). -/
def alRemove {α : Type} (k : String) : List (String × α) → List (String × α)
  | [] => []
  | (k', v') :: rest => if k' = k then rest else (k', v') :: alRemove k rest

/-- `OrderedDict.move_to_end(k)` for a present key. -/
def alMoveToEnd {α : Type} (k : String) (l : List (String × α)) : List (String × α) :=
  match alGet k l with
  | none => l
  | some v => alRemove k l ++ [(k, v)]

/-! ## ResponseCache (`response_cache.py`) -/

/-- One stored cache entry (`response_cache.py` lines 86-91). -/
structure CacheEntry where
  response : String
  timestamp : Int
  response_time : Rat
  user_input : String
deriving Repr, DecidableEq

/-- The mutable state of a `ResponseCache` object: the ordered store plus the
statistics counters the claims mention.  The head of `cache` is the oldest
(first to be evicted) entry. -/
structure RCState where
  cache : List (String × CacheEntry)
  maxAge : Int
  maxEntries : Nat
  hits : Nat
  misses : Nat
  evictions : Nat
  total_saved_time : Rat
deriving Repr, DecidableEq

/-- `ResponseCache._generate_key` (lines 38-46): normalise the utterance,
hash the prompt, truncate to 8 characters, join with `"||"`, hash again. -/
def generate_key (md5 : String → String) (prompt user_input : String) : String :=
  let normalized_input := pyStrip (pyLower user_input)
  let prompt_hash := pyTake (md5 prompt) 8
  let combined := prompt_hash ++ "||" ++ normalized_input
  md5 combined

/-- The entry built by `ResponseCache.set` (lines 86-91); the user input is
truncated to 100 characters for debugging. -/
def mkEntry (now : Int) (response : String) (response_time : Rat) (user_input : String) :
    CacheEntry :=
  { response := response, timestamp := now, response_time := response_time,
    user_input := pyTake user_input 100 }

/-- The `while len(self._cache) > self._max_entries: popitem(last=False)` loop
of `ResponseCache.set` (lines 94-96), threading the eviction counter. -/
def evictOldest {α : Type} (maxEntries : Nat) :
    List (String × α) → Nat → List (String × α) × Nat
  | [], ev => ([], ev)
  | e :: rest, ev =>
    if maxEntries < (e :: rest).length then evictOldest maxEntries rest (ev + 1)
    else (e :: rest, ev)

/-- `ResponseCache.set` (lines 76-98). -/
def rcSet (md5 : String → String) (now : Int) (prompt user_input response : String)
    (response_time : Rat) (s : RCState) : RCState :=
  let key := generate_key md5 prompt user_input
  let c := alSet key (mkEntry now response response_time user_input) s.cache
  let ce := evictOldest s.maxEntries c s.evictions
  { s with cache := ce.1, evictions := ce.2 }

/-- `ResponseCache.get` (lines 48-74): miss on absent key, miss-and-evict when
`age > max_age`, otherwise hit statistics plus move-to-end. -/
def rcGet (md5 : String → String) (now : Int) (prompt user_input : String) (s : RCState) :
    Option String × RCState :=
  let key := generate_key md5 prompt user_input
  match alGet key s.cache with
  | none => (none, { s with misses := s.misses + 1 })
  | some entry =>
    if s.maxAge < now - entry.timestamp then
      (none, { s with cache := alRemove key s.cache,
                      misses := s.misses + 1, evictions := s.evictions + 1 })
    else
      (some entry.response,
       { s with hits := s.hits + 1,
                total_saved_time := s.total_saved_time + entry.response_time,
                cache := alMoveToEnd key s.cache })

/-- A sequence of `set` calls (same instant, response and latency; the claims
about the LRU structure only depend on the keys). -/
def rcSetMany (md5 : String → String) (now : Int) (response : String) (rt : Rat) :
    List (String × String) → RCState → RCState
  | [], s => s
  | pu :: rest, s => rcSetMany md5 now response rt rest (rcSet md5 now pu.1 pu.2 response rt s)

/-! ## Association-list lemmas -/

theorem alGet_alSet_self {α : Type} (k : String) (v : α) (l : List (String × α)) :
    alGet k (alSet k v l) = some v := by
  induction l with
  | nil => simp [alGet, alSet]
  | cons hd tl ih =>
    by_cases h : hd.1 = k
    · simp [alGet, alSet, h]
    · simp [alGet, alSet, h, ih]

theorem alGet_eq_none_iff {α : Type} (k : String) (l : List (String × α)) :
    alGet k l = none ↔ k ∉ l.map Prod.fst := by
  induction l with
  | nil => simp [alGet]
  | cons hd tl ih =>
    by_cases h : hd.1 = k
    · simp [alGet, h]
    · simp [alGet, h, ih, Ne.symm h]

theorem alSet_of_get_none {α : Type} (k : String) (v : α) (l : List (String × α))
    (h : alGet k l = none) : alSet k v l = l ++ [(k, v)] := by
  induction l with
  | nil => simp [alSet]
  | cons hd tl ih =>
    by_cases hh : hd.1 = k
    · simp [alGet, hh] at h
    · simp [alGet, hh] at h
      simp [alSet, hh, ih h]

theorem alSet_keys_of_get_some {α : Type} (k : String) (v w : α) (l : List (String × α))
    (h : alGet k l = some w) : (alSet k v l).map Prod.fst = l.map Prod.fst := by
  induction l with
  | nil => simp [alGet] at h
  | cons hd tl ih =>
    by_cases hh : hd.1 = k
    · simp [alSet, hh]
    · simp [alGet, hh] at h
      simp [alSet, hh, ih h]

theorem alSet_length_of_get_some {α : Type} (k : String) (v w : α) (l : List (String × α))
    (h : alGet k l = some w) : (alSet k v l).length = l.length := by
  have := alSet_keys_of_get_some k v w l h
  have h1 : ((alSet k v l).map Prod.fst).length = (l.map Prod.fst).length := by rw [this]
  simpa using h1

theorem alGet_append_of_none {α : Type} (k : String) (l1 l2 : List (String × α))
    (h : alGet k l1 = none) : alGet k (l1 ++ l2) = alGet k l2 := by
  induction l1 with
  | nil => simp
  | cons hd tl ih =>
    by_cases hh : hd.1 = k
    · simp [alGet, hh] at h
    · simp [alGet, hh] at h
      simp [alGet, hh, ih h]

theorem alGet_none_of_not_mem {α : Type} (k : String) (l : List (String × α))
    (h : k ∉ l.map Prod.fst) : alGet k l = none :=
  (alGet_eq_none_iff k l).mpr h

theorem alRemove_head {α : Type} (k : String) (v : α) (l : List (String × α)) :
    alRemove k ((k, v) :: l) = l := by
  simp [alRemove]

/-! ## Eviction-loop characterization -/

theorem evictOldest_eq {α : Type} (m : Nat) :
    ∀ (l : List (String × α)) (ev : Nat),
      evictOldest m l ev = (l.drop (l.length - m), ev + (l.length - m)) := by
  intro l
  induction l with
  | nil => intro ev; simp [evictOldest]
  | cons hd tl ih =>
    intro ev
    by_cases h : m < (hd :: tl).length
    · have hle : m ≤ tl.length := by simpa using Nat.lt_succ_iff.mp h
      have hd1 : (hd :: tl).length - m = (tl.length - m) + 1 := by
        simp only [List.length_cons]; omega
      rw [evictOldest, if_pos h, ih (ev + 1), hd1]
      simp only [List.drop_succ_cons, Prod.mk.injEq]
      exact ⟨by simp, by omega⟩
    · have h0 : (hd :: tl).length - m = 0 := by omega
      rw [evictOldest, if_neg h, h0]
      simp

/-! ## Basic `rcSet` / `rcGet` facts -/

@[simp] theorem rcSet_maxAge (md5 : String → String) (t : Int) (p u r : String) (rt : Rat)
    (s : RCState) : (rcSet md5 t p u r rt s).maxAge = s.maxAge := rfl

@[simp] theorem rcSet_maxEntries (md5 : String → String) (t : Int) (p u r : String) (rt : Rat)
    (s : RCState) : (rcSet md5 t p u r rt s).maxEntries = s.maxEntries := rfl

@[simp] theorem rcSet_hits (md5 : String → String) (t : Int) (p u r : String) (rt : Rat)
    (s : RCState) : (rcSet md5 t p u r rt s).hits = s.hits := rfl

@[simp] theorem rcSet_misses (md5 : String → String) (t : Int) (p u r : String) (rt : Rat)
    (s : RCState) : (rcSet md5 t p u r rt s).misses = s.misses := rfl

theorem rcSet_cache (md5 : String → String) (t : Int) (p u r : String) (rt : Rat)
    (s : RCState) :
    (rcSet md5 t p u r rt s).cache =
      (alSet (generate_key md5 p u) (mkEntry t r rt u) s.cache).drop
        ((alSet (generate_key md5 p u) (mkEntry t r rt u) s.cache).length - s.maxEntries) := by
  simp [rcSet, evictOldest_eq]

/-- After any `set`, the store holds at most `maxEntries` entries. -/
theorem rcSet_length_le (md5 : String → String) (t : Int) (p u r : String) (rt : Rat)
    (s : RCState) : (rcSet md5 t p u r rt s).cache.length ≤ s.maxEntries := by
  rw [rcSet_cache]
  rw [List.length_drop]
  omega

/-- The freshly-set entry is retrievable right after `set`, provided the store
was within its bound and the bound is at least one. -/
theorem alGet_rcSet_self (md5 : String → String) (t : Int) (p u r : String) (rt : Rat)
    (s : RCState) (hlen : s.cache.length ≤ s.maxEntries) (hm : 1 ≤ s.maxEntries) :
    alGet (generate_key md5 p u) (rcSet md5 t p u r rt s).cache =
      some (mkEntry t r rt u) := by
  set k := generate_key md5 p u with hk
  rw [rcSet_cache]
  cases hg : alGet k s.cache with
  | some w =>
    have hkeys := alSet_keys_of_get_some k (mkEntry t r rt u) w s.cache hg
    have hlen' := alSet_length_of_get_some k (mkEntry t r rt u) w s.cache hg
    have h0 : (alSet k (mkEntry t r rt u) s.cache).length - s.maxEntries = 0 := by omega
    rw [h0, List.drop_zero]
    exact alGet_alSet_self k (mkEntry t r rt u) s.cache
  | none =>
    rw [alSet_of_get_none k (mkEntry t r rt u) s.cache hg]
    have hnotmem : k ∉ s.cache.map Prod.fst := (alGet_eq_none_iff k s.cache).mp hg
    have hlen2 : (s.cache ++ [(k, mkEntry t r rt u)]).length = s.cache.length + 1 := by simp
    rw [hlen2]
    have hd : s.cache.length + 1 - s.maxEntries ≤ 1 := by omega
    rw [List.drop_append_eq_append_drop]
    have hd2 : s.cache.length + 1 - s.maxEntries - s.cache.length = 0 := by omega
    rw [hd2, List.drop_zero]
    have hnone : alGet k (s.cache.drop (s.cache.length + 1 - s.maxEntries)) = none := by
      apply alGet_none_of_not_mem
      intro hmem
      apply hnotmem
      have hmd : (s.cache.drop (s.cache.length + 1 - s.maxEntries)).map Prod.fst
          = (s.cache.map Prod.fst).drop (s.cache.length + 1 - s.maxEntries) :=
        List.map_drop Prod.fst s.cache (s.cache.length + 1 - s.maxEntries)
      rw [hmd] at hmem
      exact (List.drop_subset _ _) hmem
    rw [alGet_append_of_none _ _ _ hnone]
    simp [alGet]

theorem alGet_alRemove_self {α : Type} (k : String) (l : List (String × α))
    (hnd : (l.map Prod.fst).Nodup) : alGet k (alRemove k l) = none := by
  induction l with
  | nil => simp [alRemove, alGet]
  | cons hd tl ih =>
    simp only [List.map_cons, List.nodup_cons] at hnd
    by_cases hh : hd.1 = k
    · rw [alRemove, if_pos hh]
      apply alGet_none_of_not_mem
      rw [← hh]
      exact hnd.1
    · rw [alRemove, if_neg hh, alGet, if_neg hh]
      exact ih hnd.2

theorem rcSet_keys_nodup (md5 : String → String) (t : Int) (p u r : String) (rt : Rat)
    (s : RCState) (hnd : (s.cache.map Prod.fst).Nodup) :
    ((rcSet md5 t p u r rt s).cache.map Prod.fst).Nodup := by
  rw [rcSet_cache, List.map_drop]
  apply List.Nodup.sublist (List.drop_sublist _ _)
  cases hg : alGet (generate_key md5 p u) s.cache with
  | some w => rw [alSet_keys_of_get_some _ _ _ _ hg]; exact hnd
  | none =>
    rw [alSet_of_get_none _ _ _ hg]
    have hfresh := (alGet_eq_none_iff _ _).mp hg
    simp only [List.map_append, List.map_cons, List.map_nil]
    rw [List.nodup_append]
    exact ⟨hnd, List.nodup_singleton _, by simpa using hfresh⟩

/-- A `get` right after a `set` whose derived keys agree is a hit returning the
freshly stored response, incrementing the hit counter and moving the entry to
the most-recently-used position. -/
theorem rcGet_hit_after_set (md5 : String → String) (t0 t1 : Int) (p u p' u' r : String)
    (rt : Rat) (s : RCState) (hk : generate_key md5 p' u' = generate_key md5 p u)
    (hlen : s.cache.length ≤ s.maxEntries) (hm : 1 ≤ s.maxEntries)
    (hage : t1 - t0 ≤ s.maxAge) :
    rcGet md5 t1 p' u' (rcSet md5 t0 p u r rt s)
      = (some r, { rcSet md5 t0 p u r rt s with
          hits := s.hits + 1,
          total_saved_time := s.total_saved_time + rt,
          cache := alMoveToEnd (generate_key md5 p u) (rcSet md5 t0 p u r rt s).cache }) := by
  have hget := alGet_rcSet_self md5 t0 p u r rt s hlen hm
  have hcond : ¬ (s.maxAge < t1 - t0) := by omega
  rw [rcGet, hk, hget]
  dsimp only [mkEntry]
  rw [rcSet_maxAge, if_neg hcond]
  rfl

/-- The cache keys produced by a list of `(prompt, user_input)` pairs. -/
def keysOf (md5 : String → String) (pus : List (String × String)) : List String :=
  pus.map (fun pu => generate_key md5 pu.1 pu.2)

/-- The cache entries appended by a run of fresh-key `set` calls. -/
def entriesOf (md5 : String → String) (t : Int) (resp : String) (rt : Rat)
    (pus : List (String × String)) : List (String × CacheEntry) :=
  pus.map (fun pu => (generate_key md5 pu.1 pu.2, mkEntry t resp rt pu.2))

theorem entries_keys (md5 : String → String) (t : Int) (resp : String) (rt : Rat)
    (pus : List (String × String)) :
    (entriesOf md5 t resp rt pus).map Prod.fst = keysOf md5 pus := by
  simp [keysOf, entriesOf, List.map_map, Function.comp]

theorem entriesOf_length (md5 : String → String) (t : Int) (resp : String) (rt : Rat)
    (pus : List (String × String)) :
    (entriesOf md5 t resp rt pus).length = pus.length := by
  simp [entriesOf]

/-- One `rcSetMany` pass with all-fresh keys and enough room appends the new
entries in order, touching nothing else. -/
theorem rcSetMany_eq (md5 : String → String) (t : Int) (resp : String) (rt : Rat) :
    ∀ (pus : List (String × String)) (s : RCState),
      (s.cache.map Prod.fst ++ keysOf md5 pus).Nodup →
      s.cache.length + pus.length ≤ s.maxEntries →
      rcSetMany md5 t resp rt pus s
        = { s with cache := s.cache ++ entriesOf md5 t resp rt pus } := by
  intro pus
  induction pus with
  | nil => intro s _ _; simp [rcSetMany, entriesOf]
  | cons pu rest ih =>
    intro s hnd hlen
    have hnd' := hnd
    rw [keysOf, List.map_cons, List.nodup_append] at hnd'
    obtain ⟨ndA, ndB, disj⟩ := hnd'
    have hkfresh : generate_key md5 pu.1 pu.2 ∉ s.cache.map Prod.fst := by
      intro hk
      exact disj hk (List.mem_cons_self _ _)
    have hget : alGet (generate_key md5 pu.1 pu.2) s.cache = none :=
      alGet_none_of_not_mem _ _ hkfresh
    have hset : rcSet md5 t pu.1 pu.2 resp rt s
        = { s with cache := s.cache ++ [(generate_key md5 pu.1 pu.2, mkEntry t resp rt pu.2)] } := by
      have h0 : s.cache.length + 1 - s.maxEntries = 0 := by
        simp only [List.length_cons] at hlen
        omega
      rw [rcSet]
      rw [alSet_of_get_none _ _ _ hget, evictOldest_eq]
      simp [h0]
    rw [rcSetMany, hset]
    rw [ih]
    · simp [entriesOf]
    · simp only [List.map_append, List.map_cons, List.map_nil]
      have hre : (s.cache.map Prod.fst ++ [generate_key md5 pu.1 pu.2]) ++ keysOf md5 rest
          = s.cache.map Prod.fst ++ (generate_key md5 pu.1 pu.2 :: keysOf md5 rest) := by
        simp
      rw [hre]
      simpa [keysOf] using hnd
    · simp only [List.length_append, List.length_singleton]
      simp only [List.length_cons] at hlen
      omega

theorem rcSetMany_append (md5 : String → String) (t : Int) (resp : String) (rt : Rat) :
    ∀ (xs ys : List (String × String)) (s : RCState),
      rcSetMany md5 t resp rt (xs ++ ys) s
        = rcSetMany md5 t resp rt ys (rcSetMany md5 t resp rt xs s) := by
  intro xs
  induction xs with
  | nil => intro ys s; simp [rcSetMany]
  | cons x xt ih => intro ys s; rw [List.cons_append, rcSetMany, rcSetMany, ih]

/-- Inserting `maxEntries + 1` distinct keys into an empty cache leaves the
first-inserted key evicted and exactly `maxEntries` entries. -/
theorem rcSetMany_overflow (md5 : String → String) (t : Int) (resp : String) (rt : Rat)
    (pus : List (String × String)) (s0 : RCState)
    (hc : s0.cache = []) (hnd : (keysOf md5 pus).Nodup)
    (hlen : pus.length = s0.maxEntries + 1) :
    (rcSetMany md5 t resp rt pus s0).cache.map Prod.fst = (keysOf md5 pus).drop 1
    ∧ (rcSetMany md5 t resp rt pus s0).cache.length = s0.maxEntries := by
  obtain ⟨y, hy⟩ : ∃ y, pus.drop s0.maxEntries = [y] := by
    apply List.length_eq_one.mp
    rw [List.length_drop, hlen]
    omega
  have hxy : pus = pus.take s0.maxEntries ++ [y] := by
    conv_lhs => rw [← List.take_append_drop s0.maxEntries pus]
    rw [hy]
  have hxslen : (pus.take s0.maxEntries).length = s0.maxEntries := by
    rw [List.length_take, hlen]
    omega
  have hkeq : keysOf md5 pus = keysOf md5 (pus.take s0.maxEntries)
      ++ [generate_key md5 y.1 y.2] := by
    conv_lhs => rw [hxy]
    simp [keysOf]
  have hnd2 : (keysOf md5 (pus.take s0.maxEntries) ++ [generate_key md5 y.1 y.2]).Nodup := by
    rw [← hkeq]; exact hnd
  rw [List.nodup_append] at hnd2
  obtain ⟨ndxs, _, disj⟩ := hnd2
  have hfresh : generate_key md5 y.1 y.2 ∉ keysOf md5 (pus.take s0.maxEntries) := by
    intro hmem
    exact disj hmem (List.mem_singleton.mpr rfl)
  have htake : rcSetMany md5 t resp rt (pus.take s0.maxEntries) s0
      = { s0 with cache := entriesOf md5 t resp rt (pus.take s0.maxEntries) } := by
    have h1 := rcSetMany_eq md5 t resp rt (pus.take s0.maxEntries) s0
    rw [hc] at h1
    simpa using h1 (by simpa [keysOf] using ndxs) (by rw [hxslen]; simp)
  have hcache1keys : (entriesOf md5 t resp rt (pus.take s0.maxEntries)).map Prod.fst
      = keysOf md5 (pus.take s0.maxEntries) := entries_keys md5 t resp rt _
  have hget : alGet (generate_key md5 y.1 y.2)
      (entriesOf md5 t resp rt (pus.take s0.maxEntries)) = none := by
    apply alGet_none_of_not_mem
    rw [hcache1keys]
    exact hfresh
  have hElen : (entriesOf md5 t resp rt (pus.take s0.maxEntries)).length = s0.maxEntries := by
    rw [entriesOf_length, hxslen]
  conv_lhs => rw [hxy]
  conv_rhs => rw [hxy]
  rw [rcSetMany_append, htake]
  have hfinal : (rcSetMany md5 t resp rt [y]
      { s0 with cache := entriesOf md5 t resp rt (pus.take s0.maxEntries) }).cache
      = (entriesOf md5 t resp rt (pus.take s0.maxEntries)
          ++ [(generate_key md5 y.1 y.2, mkEntry t resp rt y.2)]).drop 1 := by
    show (rcSet md5 t y.1 y.2 resp rt _).cache = _
    rw [rcSet_cache]
    simp only []
    rw [alSet_of_get_none _ _ _ hget]
    have hl : (entriesOf md5 t resp rt (pus.take s0.maxEntries)
        ++ [(generate_key md5 y.1 y.2, mkEntry t resp rt y.2)]).length - s0.maxEntries = 1 := by
      simp only [List.length_append, List.length_singleton, hElen]
      omega
    rw [hl]
  constructor
  · rw [hfinal, List.map_drop, List.map_append, hcache1keys]
    have hk2 : keysOf md5 (pus.take s0.maxEntries)
          ++ ([(generate_key md5 y.1 y.2, mkEntry t resp rt y.2)]).map Prod.fst
        = keysOf md5 (pus.take s0.maxEntries ++ [y]) := by
      simp [keysOf]
    rw [hk2]
  · rw [hfinal, List.length_drop]
    simp only [List.length_append, List.length_singleton, hElen]
    omega

/-- Filling the cache exactly to its bound, `get`-ing the oldest key within
its TTL (which moves it to the most-recently-used position) and then inserting
one fresh key evicts the second-oldest key, not the re-accessed one. -/
theorem rcSetMany_protect (md5 : String → String) (t : Int) (resp : String) (rt : Rat)
    (p0 u0 p' u' : String) (pr : List (String × String)) (t1 t2 : Int) (s0 : RCState)
    (hc : s0.cache = [])
    (hnd : (keysOf md5 ((p0, u0) :: pr)).Nodup)
    (hfresh : generate_key md5 p' u' ∉ keysOf md5 ((p0, u0) :: pr))
    (hlen : ((p0, u0) :: pr).length = s0.maxEntries)
    (hm : 2 ≤ s0.maxEntries)
    (hage : t1 - t ≤ s0.maxAge) :
    (rcSet md5 t2 p' u' resp rt
        (rcGet md5 t1 p0 u0 (rcSetMany md5 t resp rt ((p0, u0) :: pr) s0)).2).cache.map Prod.fst
      = (keysOf md5 pr).drop 1 ++ [generate_key md5 p0 u0, generate_key md5 p' u'] := by
  have hprlen : pr.length + 1 = s0.maxEntries := by
    simpa using hlen
  have hfill : rcSetMany md5 t resp rt ((p0, u0) :: pr) s0
      = { s0 with cache := entriesOf md5 t resp rt ((p0, u0) :: pr) } := by
    have h1 := rcSetMany_eq md5 t resp rt ((p0, u0) :: pr) s0
      (by rw [hc]; simpa using hnd) (by rw [hc]; simp [hlen])
    rw [hc] at h1
    simpa using h1
  have hc1 : (rcSetMany md5 t resp rt ((p0, u0) :: pr) s0).cache
      = (generate_key md5 p0 u0, mkEntry t resp rt u0) :: entriesOf md5 t resp rt pr := by
    rw [hfill]
    simp [entriesOf]
  have hkey : alGet (generate_key md5 p0 u0)
      (rcSetMany md5 t resp rt ((p0, u0) :: pr) s0).cache = some (mkEntry t resp rt u0) := by
    rw [hc1]
    simp [alGet]
  have hMA : (rcSetMany md5 t resp rt ((p0, u0) :: pr) s0).maxAge = s0.maxAge := by
    rw [hfill]
  have hmv : alMoveToEnd (generate_key md5 p0 u0)
      (rcSetMany md5 t resp rt ((p0, u0) :: pr) s0).cache
      = entriesOf md5 t resp rt pr ++ [(generate_key md5 p0 u0, mkEntry t resp rt u0)] := by
    rw [hc1]
    simp [alMoveToEnd, alGet, alRemove]
  have hGet : rcGet md5 t1 p0 u0 (rcSetMany md5 t resp rt ((p0, u0) :: pr) s0)
      = (some resp,
        { cache := entriesOf md5 t resp rt pr
            ++ [(generate_key md5 p0 u0, mkEntry t resp rt u0)],
          maxAge := s0.maxAge,
          maxEntries := s0.maxEntries,
          hits := s0.hits + 1,
          misses := s0.misses,
          evictions := s0.evictions,
          total_saved_time := s0.total_saved_time + rt }) := by
    rw [rcGet, hkey]
    dsimp only [mkEntry]
    rw [hMA, if_neg (by omega : ¬ (s0.maxAge < t1 - t))]
    rw [hmv, hfill]
    rfl
  have hkeys2 : ((rcGet md5 t1 p0 u0 (rcSetMany md5 t resp rt ((p0, u0) :: pr) s0)).2.cache).map
      Prod.fst = keysOf md5 pr ++ [generate_key md5 p0 u0] := by
    rw [hGet]
    simp only [List.map_append]
    rw [entries_keys]
    simp
  have hget' : alGet (generate_key md5 p' u')
      (rcGet md5 t1 p0 u0 (rcSetMany md5 t resp rt ((p0, u0) :: pr) s0)).2.cache = none := by
    apply alGet_none_of_not_mem
    rw [hkeys2]
    intro hmem
    rcases List.mem_append.mp hmem with h1 | h1
    · exact hfresh (by simp [keysOf]; right; simpa [keysOf] using h1)
    · exact hfresh (by simp [keysOf]; left; simpa using h1)
  have hlen2 : (rcGet md5 t1 p0 u0 (rcSetMany md5 t resp rt ((p0, u0) :: pr) s0)).2.cache.length
      = s0.maxEntries := by
    rw [hGet]
    simp only [List.length_append, List.length_singleton, entriesOf_length]
    omega
  have hME2 : (rcGet md5 t1 p0 u0 (rcSetMany md5 t resp rt ((p0, u0) :: pr) s0)).2.maxEntries
      = s0.maxEntries := by
    rw [hGet]
  rw [rcSet_cache]
  rw [alSet_of_get_none _ _ _ hget']
  rw [hME2]
  have hL : ((rcGet md5 t1 p0 u0 (rcSetMany md5 t resp rt ((p0, u0) :: pr) s0)).2.cache
      ++ [(generate_key md5 p' u', mkEntry t2 resp rt u')]).length - s0.maxEntries = 1 := by
    simp only [List.length_append, List.length_singleton, hlen2]
    omega
  rw [hL, List.map_drop, List.map_append, hkeys2]
  have hsplit : (keysOf md5 pr ++ [generate_key md5 p0 u0])
        ++ ([(generate_key md5 p' u', mkEntry t2 resp rt u')]).map Prod.fst
      = keysOf md5 pr ++ [generate_key md5 p0 u0, generate_key md5 p' u'] := by
    simp
  rw [hsplit]
  rw [List.drop_append_eq_append_drop]
  have h10 : 1 - (keysOf md5 pr).length = 0 := by
    simp only [keysOf, List.length_map]
    omega
  rw [h10, List.drop_zero]

/-! ## Concrete instances used by the witnesses -/

/-- A concrete stand-in for the abstract `hashlib.md5` hexdigest. -/
def md5c : String → String := fun s => s

/-- A fresh `ResponseCache` state with the given entry bound and the default
300-second TTL. -/
def rcEmpty (m : Nat) : RCState :=
  { cache := [], maxAge := 300, maxEntries := m,
    hits := 0, misses := 0, evictions := 0, total_saved_time := 0 }

/-! ## Claim theorems: ResponseCache -/

/-- Claim C2: after any `set` the cache holds at most `maxEntries` entries;
inserting `maxEntries + 1` distinct keys into an empty cache leaves exactly
`maxEntries` entries with the least-recently-accessed (first-inserted) key
evicted first; and a key that was re-`get` (within its TTL) before the bound
was exceeded is not the one evicted by the next over-bound insertion — its
successor in insertion order is evicted instead. -/
theorem response_cache_lru_bound (md5 : String → String) (t : Int) (resp : String) (rt : Rat) :
    (∀ (t' : Int) (p u r : String) (rt' : Rat) (s : RCState),
        (rcSet md5 t' p u r rt' s).cache.length ≤ s.maxEntries)
    ∧ (∀ (pus : List (String × String)) (s0 : RCState),
        s0.cache = [] → (keysOf md5 pus).Nodup → pus.length = s0.maxEntries + 1 →
        (rcSetMany md5 t resp rt pus s0).cache.length = s0.maxEntries
        ∧ (rcSetMany md5 t resp rt pus s0).cache.map Prod.fst = (keysOf md5 pus).drop 1
        ∧ ∀ k0, (keysOf md5 pus).head? = some k0 →
            k0 ∉ (rcSetMany md5 t resp rt pus s0).cache.map Prod.fst)
    ∧ (∀ (p0 u0 p' u' : String) (pr : List (String × String)) (t1 t2 : Int) (s0 : RCState),
        s0.cache = [] → (keysOf md5 ((p0, u0) :: pr)).Nodup →
        generate_key md5 p' u' ∉ keysOf md5 ((p0, u0) :: pr) →
        ((p0, u0) :: pr).length = s0.maxEntries → 2 ≤ s0.maxEntries →
        t1 - t ≤ s0.maxAge →
        generate_key md5 p0 u0 ∈
          (rcSet md5 t2 p' u' resp rt
            (rcGet md5 t1 p0 u0
              (rcSetMany md5 t resp rt ((p0, u0) :: pr) s0)).2).cache.map Prod.fst
        ∧ ∀ kk, (keysOf md5 ((p0, u0) :: pr))[1]? = some kk →
            kk ∉ (rcSet md5 t2 p' u' resp rt
              (rcGet md5 t1 p0 u0
                (rcSetMany md5 t resp rt ((p0, u0) :: pr) s0)).2).cache.map Prod.fst) := by
  refine ⟨?_, ?_, ?_⟩
  · intro t' p u r rt' s
    exact rcSet_length_le md5 t' p u r rt' s
  · intro pus s0 hc hnd hl
    obtain ⟨hk, hlen⟩ := rcSetMany_overflow md5 t resp rt pus s0 hc hnd hl
    refine ⟨hlen, hk, ?_⟩
    intro k0 hhead
    rw [hk]
    cases hke : keysOf md5 pus with
    | nil => rw [hke] at hhead; simp at hhead
    | cons a l =>
      rw [hke] at hhead hnd
      simp only [List.head?_cons, Option.some.injEq] at hhead
      subst hhead
      simpa using (List.nodup_cons.mp hnd).1
  · intro p0 u0 p' u' pr t1 t2 s0 hc hnd hfresh hl hm hage
    have hk := rcSetMany_protect md5 t resp rt p0 u0 p' u' pr t1 t2 s0 hc hnd hfresh hl hm hage
    rw [hk]
    constructor
    · simp
    · intro kk hkk
      have hkc : keysOf md5 ((p0, u0) :: pr) = generate_key md5 p0 u0 :: keysOf md5 pr := by
        simp [keysOf]
      rw [hkc] at hkk hnd hfresh
      simp only [List.getElem?_cons_succ] at hkk
      cases hkp : keysOf md5 pr with
      | nil => rw [hkp] at hkk; simp at hkk
      | cons b l2 =>
        rw [hkp] at hkk hnd hfresh
        simp only [List.getElem?_cons_zero, Option.some.injEq] at hkk
        subst hkk
        have hn1 := List.nodup_cons.mp hnd
        have hn2 := List.nodup_cons.mp hn1.2
        simp only [List.drop_succ_cons, List.drop_zero, List.mem_append, List.mem_cons,
          List.not_mem_nil, or_false]
        push_neg
        refine ⟨hn2.1, ?_, ?_⟩
        · intro hbk
          exact hn1.1 (by rw [hbk]; exact List.mem_cons_self _ _)
        · intro hbk
          exact hfresh (by rw [← hbk]; simp)

/-- Witness for C2: with the identity in place of MD5, inserting the three
distinct keys of `("p","a") ("p","b") ("p","c")` into an empty 2-entry cache
leaves 2 entries with the key of `("p","a")` evicted; and after filling a
2-entry cache with `("p","a") ("p","b")` and re-`get`-ing `("p","a")`, a
fresh insert keeps the key of `("p","a")` in the store. -/
theorem response_cache_lru_bound_witness :
    (rcSetMany md5c 0 "r" 1 [("p", "a"), ("p", "b"), ("p", "c")] (rcEmpty 2)).cache.length = 2
    ∧ generate_key md5c "p" "a"
        ∉ (rcSetMany md5c 0 "r" 1 [("p", "a"), ("p", "b"), ("p", "c")]
            (rcEmpty 2)).cache.map Prod.fst
    ∧ generate_key md5c "p" "a"
        ∈ (rcSet md5c 0 "p" "c" "r" 1
            (rcGet md5c 0 "p" "a"
              (rcSetMany md5c 0 "r" 1 [("p", "a"), ("p", "b")]
                (rcEmpty 2))).2).cache.map Prod.fst := by
  have h := response_cache_lru_bound md5c 0 "r" 1
  refine ⟨(h.2.1 _ _ rfl (by decide) (by decide)).1,
          (h.2.1 _ _ rfl (by decide) (by decide)).2.2 _ (by decide), ?_⟩
  exact (h.2.2 "p" "a" "p" "c" [("p", "b")] 0 0 (rcEmpty 2) rfl (by decide) (by decide)
    (by decide) (by decide) (by decide)).1

/-- Claim C3: after `set(p, u, r)`, a `get(p, u)` whose entry age does not
exceed `maxAge` returns `r` and increments the hit counter; a `get(p, u)`
whose entry age exceeds `maxAge` returns a miss, removes the entry from the
store and increments the miss counter; and a `get` on an absent key returns a
miss. -/
theorem response_cache_ttl (md5 : String → String) (p u r : String) (rt : Rat)
    (t0 t1 : Int) (s : RCState)
    (hnd : (s.cache.map Prod.fst).Nodup)
    (hlen : s.cache.length ≤ s.maxEntries) (hm : 1 ≤ s.maxEntries) :
    (t1 - t0 ≤ s.maxAge →
      (rcGet md5 t1 p u (rcSet md5 t0 p u r rt s)).1 = some r
        ∧ (rcGet md5 t1 p u (rcSet md5 t0 p u r rt s)).2.hits = s.hits + 1)
    ∧ (s.maxAge < t1 - t0 →
      (rcGet md5 t1 p u (rcSet md5 t0 p u r rt s)).1 = none
        ∧ alGet (generate_key md5 p u)
            (rcGet md5 t1 p u (rcSet md5 t0 p u r rt s)).2.cache = none
        ∧ (rcGet md5 t1 p u (rcSet md5 t0 p u r rt s)).2.misses = s.misses + 1)
    ∧ (∀ (s' : RCState) (tq : Int) (p' u' : String),
        alGet (generate_key md5 p' u') s'.cache = none →
        rcGet md5 tq p' u' s' = (none, { s' with misses := s'.misses + 1 })) := by
  refine ⟨?_, ?_, ?_⟩
  · intro hage
    rw [rcGet_hit_after_set md5 t0 t1 p u p u r rt s rfl hlen hm hage]
    exact ⟨rfl, rfl⟩
  · intro hage
    have hget := alGet_rcSet_self md5 t0 p u r rt s hlen hm
    have hcomp : rcGet md5 t1 p u (rcSet md5 t0 p u r rt s)
        = (none, { rcSet md5 t0 p u r rt s with
            cache := alRemove (generate_key md5 p u) (rcSet md5 t0 p u r rt s).cache,
            misses := s.misses + 1,
            evictions := (rcSet md5 t0 p u r rt s).evictions + 1 }) := by
      rw [rcGet, hget]
      dsimp only [mkEntry]
      rw [rcSet_maxAge, if_pos (by omega : s.maxAge < t1 - t0)]
      rfl
    rw [hcomp]
    refine ⟨rfl, ?_, rfl⟩
    exact alGet_alRemove_self _ _ (rcSet_keys_nodup md5 t0 p u r rt s hnd)
  · intro s' tq p' u' hnone
    rw [rcGet, hnone]

/-- Witness for C3: a hit 5 seconds after the set returns the response, a get
400 seconds after the set (TTL 300) misses, and a get on an empty cache
misses. -/
theorem response_cache_ttl_witness :
    (rcGet md5c 5 "p" "u" (rcSet md5c 0 "p" "u" "r" 1 (rcEmpty 200))).1 = some "r"
    ∧ (rcGet md5c 400 "p" "u" (rcSet md5c 0 "p" "u" "r" 1 (rcEmpty 200))).1 = none
    ∧ (rcGet md5c 0 "p" "u" (rcEmpty 200)).1 = none := by
  have h1 := response_cache_ttl md5c "p" "u" "r" 1 0 5 (rcEmpty 200)
    (by decide) (by decide) (by decide)
  have h2 := response_cache_ttl md5c "p" "u" "r" 1 0 400 (rcEmpty 200)
    (by decide) (by decide) (by decide)
  refine ⟨(h1.1 (by decide)).1, (h2.2.1 (by decide)).1, ?_⟩
  rw [h1.2.2 (rcEmpty 200) 0 "p" "u" (by decide)]

/-- Claim C8: the cache key is the hash of the (truncated) hash of the full
prompt joined with "||" and the lower-cased, whitespace-trimmed utterance, so
two user inputs that normalise identically produce the same key for the same
prompt, and a `set` under one input is a hit under the other. -/
theorem response_cache_key_normalization (md5 : String → String) (p u1 u2 : String)
    (h : pyStrip (pyLower u1) = pyStrip (pyLower u2)) :
    generate_key md5 p u1 = generate_key md5 p u2
    ∧ (∀ u : String,
        generate_key md5 p u = md5 (pyTake (md5 p) 8 ++ "||" ++ pyStrip (pyLower u)))
    ∧ (∀ (r : String) (rt : Rat) (t0 t1 : Int) (s : RCState),
        s.cache.length ≤ s.maxEntries → 1 ≤ s.maxEntries → t1 - t0 ≤ s.maxAge →
        (rcGet md5 t1 p u2 (rcSet md5 t0 p u1 r rt s)).1 = some r) := by
  have hkey : generate_key md5 p u1 = generate_key md5 p u2 := by
    unfold generate_key
    rw [h]
  refine ⟨hkey, fun u => rfl, ?_⟩
  intro r rt t0 t1 s hlen hm hage
  rw [rcGet_hit_after_set md5 t0 t1 p u1 p u2 r rt s hkey.symm hlen hm hage]

/-- Witness for C8: "Turn on the light" and "turn on the light " produce the
same key, and a set under the former is a hit under the latter. -/
theorem response_cache_key_normalization_witness :
    generate_key md5c "sys" "Turn on the light" = generate_key md5c "sys" "turn on the light "
    ∧ (rcGet md5c 1 "sys" "turn on the light "
        (rcSet md5c 0 "sys" "Turn on the light" "ok" 1 (rcEmpty 200))).1 = some "ok" := by
  have h := response_cache_key_normalization md5c "sys" "Turn on the light"
    "turn on the light " (by decide)
  exact ⟨h.1, h.2.2 "ok" 1 0 1 (rcEmpty 200) (by decide) (by decide) (by decide)⟩

/-- Claim C10: `set` with an existing key overwrites the stored response and
timestamp in place — the key list (hence the entry's position in the LRU
eviction order) and the store size are unchanged; only `get` moves entries. -/
theorem response_cache_overwrite_keeps_position (md5 : String → String)
    (p u r1 r2 : String) (rt1 rt2 : Rat) (t1 t2 : Int) (s : RCState)
    (hlen : s.cache.length ≤ s.maxEntries) (hm : 1 ≤ s.maxEntries) :
    (rcSet md5 t2 p u r2 rt2 (rcSet md5 t1 p u r1 rt1 s)).cache.map Prod.fst
      = (rcSet md5 t1 p u r1 rt1 s).cache.map Prod.fst
    ∧ alGet (generate_key md5 p u)
        (rcSet md5 t2 p u r2 rt2 (rcSet md5 t1 p u r1 rt1 s)).cache
      = some (mkEntry t2 r2 rt2 u)
    ∧ (rcSet md5 t2 p u r2 rt2 (rcSet md5 t1 p u r1 rt1 s)).cache.length
      = (rcSet md5 t1 p u r1 rt1 s).cache.length := by
  have hget1 : alGet (generate_key md5 p u) (rcSet md5 t1 p u r1 rt1 s).cache
      = some (mkEntry t1 r1 rt1 u) := alGet_rcSet_self md5 t1 p u r1 rt1 s hlen hm
  have hkeys := alSet_keys_of_get_some (generate_key md5 p u) (mkEntry t2 r2 rt2 u) _ _ hget1
  have hlen2 := alSet_length_of_get_some (generate_key md5 p u) (mkEntry t2 r2 rt2 u) _ _ hget1
  have hc2 : (rcSet md5 t2 p u r2 rt2 (rcSet md5 t1 p u r1 rt1 s)).cache
      = alSet (generate_key md5 p u) (mkEntry t2 r2 rt2 u)
          (rcSet md5 t1 p u r1 rt1 s).cache := by
    rw [rcSet_cache]
    have h0 : (alSet (generate_key md5 p u) (mkEntry t2 r2 rt2 u)
        (rcSet md5 t1 p u r1 rt1 s).cache).length
        - (rcSet md5 t1 p u r1 rt1 s).maxEntries = 0 := by
      rw [hlen2, rcSet_maxEntries]
      have := rcSet_length_le md5 t1 p u r1 rt1 s
      omega
    rw [h0, List.drop_zero]
  refine ⟨?_, ?_, ?_⟩
  · rw [hc2, hkeys]
  · rw [hc2]
    exact alGet_alSet_self _ _ _
  · rw [hc2, hlen2]

/-- Witness for C10: overwriting the sole entry of a cache keeps its key list
and yields the new response and timestamp under the key. -/
theorem response_cache_overwrite_keeps_position_witness :
    (rcSet md5c 9 "p" "u" "new" 1 (rcSet md5c 0 "p" "u" "old" 1 (rcEmpty 200))).cache.map
        Prod.fst
      = (rcSet md5c 0 "p" "u" "old" 1 (rcEmpty 200)).cache.map Prod.fst
    ∧ alGet (generate_key md5c "p" "u")
        (rcSet md5c 9 "p" "u" "new" 1 (rcSet md5c 0 "p" "u" "old" 1 (rcEmpty 200))).cache
      = some (mkEntry 9 "new" 1 "u") := by
  have h := response_cache_overwrite_keeps_position md5c "p" "u" "old" "new" 1 1 0 9
    (rcEmpty 200) (by decide) (by decide)
  exact ⟨h.1, h.2.1⟩

/-! ## JSON values

Results of Python `json.loads`.  Numbers are exact rationals (Python uses
ints and IEEE floats; every number this pipeline manipulates is exactly
representable). -/

inductive JValue where
  | null
  | bool (b : Bool)
  | num (q : Rat)
  | str (s : String)
  | arr (xs : List JValue)
  | obj (kvs : List (String × JValue))

/-- Brace and backtick characters (kept out of literals). -/
def lbrace : Char := Char.ofNat 123

def rbrace : Char := Char.ofNat 125

def btick : Char := Char.ofNat 96

def isJsonWs (c : Char) : Bool := c = ' ' || c = '\t' || c = '\n' || c = '\r'

def skipJsonWs : List Char → List Char
  | [] => []
  | c :: rest => if isJsonWs c then skipJsonWs rest else c :: rest

/-- JSON string body after the opening quote.  The common escapes are decoded;
`\uXXXX` escapes are not modelled (no input in this development contains
them). -/
def parseJsonStringAux : List Char → List Char → Option (List Char × List Char)
  | _, [] => none
  | acc, c :: rest =>
    if c = '"' then some (acc.reverse, rest)
    else if c = '\\' then
      match rest with
      | [] => none
      | e :: rest2 =>
        if e = '"' then parseJsonStringAux ('"' :: acc) rest2
        else if e = '\\' then parseJsonStringAux ('\\' :: acc) rest2
        else if e = '/' then parseJsonStringAux ('/' :: acc) rest2
        else if e = 'n' then parseJsonStringAux ('\n' :: acc) rest2
        else if e = 't' then parseJsonStringAux ('\t' :: acc) rest2
        else if e = 'r' then parseJsonStringAux ('\r' :: acc) rest2
        else if e = 'b' then parseJsonStringAux ('\x08' :: acc) rest2
        else if e = 'f' then parseJsonStringAux ('\x0c' :: acc) rest2
        else none
    else parseJsonStringAux (c :: acc) rest

def digitsToNat (ds : List Char) : Nat :=
  ds.foldl (fun acc c => acc * 10 + (c.toNat - 48)) 0

/-- Python json's number grammar `(-?(?:0|[1-9]\d*))(\.\d+)?([eE][-+]?\d+)?`,
evaluated exactly. -/
def parseJsonNumber (cs : List Char) : Option (Rat × List Char) :=
  let signed : Bool × List Char :=
    match cs with
    | '-' :: r => (true, r)
    | _ => (false, cs)
  let neg := signed.1
  let cs1 := signed.2
  match cs1 with
  | [] => none
  | d :: r =>
    if ¬ d.isDigit then none
    else
      let intPart : Nat × List Char :=
        if d = '0' then (0, r)
        else
          let ds := r.takeWhile Char.isDigit
          (digitsToNat (d :: ds), r.drop ds.length)
      let n := intPart.1
      let cs2 := intPart.2
      let frac : Rat × List Char :=
        match cs2 with
        | '.' :: f :: fr =>
          if f.isDigit then
            let ds := fr.takeWhile Char.isDigit
            let all := f :: ds
            ((digitsToNat all : Rat) / ((10 : Rat) ^ all.length), fr.drop ds.length)
          else (0, cs2)
        | _ => (0, cs2)
      let base : Rat := (n : Rat) + frac.1
      let cs3 := frac.2
      let expPart : Option (Int × List Char) :=
        match cs3 with
        | e :: er =>
          if e = 'e' ∨ e = 'E' then
            match er with
            | '+' :: d2 :: dr =>
              if d2.isDigit then
                let ds := dr.takeWhile Char.isDigit
                some ((digitsToNat (d2 :: ds) : Int), dr.drop ds.length)
              else none
            | '-' :: d2 :: dr =>
              if d2.isDigit then
                let ds := dr.takeWhile Char.isDigit
                some (-(digitsToNat (d2 :: ds) : Int), dr.drop ds.length)
              else none
            | d2 :: dr =>
              if d2.isDigit then
                let ds := dr.takeWhile Char.isDigit
                some ((digitsToNat (d2 :: ds) : Int), dr.drop ds.length)
              else none
            | [] => none
          else none
        | [] => none
      let withExp : Rat × List Char :=
        match expPart with
        | some (e, rest4) => (base * (10 : Rat) ^ e, rest4)
        | none => (base, cs3)
      some ((if neg then -withExp.1 else withExp.1), withExp.2)

/-- Keyword tail matcher for `true` / `false` / `null`. -/
def matchKeyword : List Char → List Char → Option (List Char)
  | [], cs => some cs
  | _ :: _, [] => none
  | l :: ls, c :: cs => if c = l then matchKeyword ls cs else none

mutual

/-- Recursive-descent JSON value parser (fuel-indexed; the wrapper supplies
enough fuel for any input).  `NaN`/`Infinity` constants are not modelled. -/
def parseJsonValue : Nat → List Char → Option (JValue × List Char)
  | 0, _ => none
  | fuel + 1, cs =>
    match skipJsonWs cs with
    | [] => none
    | c :: rest =>
      if c = '"' then
        match parseJsonStringAux [] rest with
        | some (body, rest2) => some (.str ⟨body⟩, rest2)
        | none => none
      else if c = lbrace then
        match skipJsonWs rest with
        | r :: tail =>
          if r = rbrace then some (.obj [], tail)
          else
            match parseJsonMembers fuel (r :: tail) [] with
            | some (kvs, rest2) => some (.obj kvs, rest2)
            | none => none
        | [] => none
      else if c = '[' then
        match skipJsonWs rest with
        | r :: tail =>
          if r = ']' then some (.arr [], tail)
          else
            match parseJsonElements fuel (r :: tail) [] with
            | some (xs, rest2) => some (.arr xs, rest2)
            | none => none
        | [] => none
      else if c = 't' then
        match matchKeyword ['r', 'u', 'e'] rest with
        | some rest2 => some (.bool true, rest2)
        | none => none
      else if c = 'f' then
        match matchKeyword ['a', 'l', 's', 'e'] rest with
        | some rest2 => some (.bool false, rest2)
        | none => none
      else if c = 'n' then
        match matchKeyword ['u', 'l', 'l'] rest with
        | some rest2 => some (.null, rest2)
        | none => none
      else
        match parseJsonNumber (c :: rest) with
        | some (q, rest2) => some (.num q, rest2)
        | none => none

/-- One or more `"key": value` members, comma-separated, ending at the
closing brace.  Duplicate keys overwrite in place, as Python dicts do. -/
def parseJsonMembers : Nat → List Char → List (String × JValue) →
    Option (List (String × JValue) × List Char)
  | 0, _, _ => none
  | fuel + 1, cs, acc =>
    match skipJsonWs cs with
    | '"' :: rest =>
      match parseJsonStringAux [] rest with
      | some (keyBody, rest2) =>
        match skipJsonWs rest2 with
        | ':' :: rest3 =>
          match parseJsonValue fuel rest3 with
          | some (v, rest4) =>
            let acc2 := alSet (⟨keyBody⟩ : String) v acc
            match skipJsonWs rest4 with
            | ',' :: rest5 => parseJsonMembers fuel rest5 acc2
            | r :: rest5 => if r = rbrace then some (acc2, rest5) else none
            | [] => none
          | none => none
        | _ => none
      | none => none
    | _ => none

/-- One or more array elements, comma-separated, ending at `]`. -/
def parseJsonElements : Nat → List Char → List JValue →
    Option (List JValue × List Char)
  | 0, _, _ => none
  | fuel + 1, cs, acc =>
    match parseJsonValue fuel cs with
    | some (v, rest) =>
      match skipJsonWs rest with
      | ',' :: rest2 => parseJsonElements fuel rest2 (acc ++ [v])
      | ']' :: rest2 => some (acc ++ [v], rest2)
      | _ => none
    | none => none

end

/-- `json.loads`: parse a complete document, rejecting trailing garbage
("Extra data" in Python). -/
def json_loads (cs : List Char) : Option JValue :=
  match parseJsonValue (cs.length + 1) cs with
  | some (v, rest) => if (skipJsonWs rest).isEmpty then some v else none
  | none => none

/-! ## The regular expressions of `device_control.py`, as character scanners

Each `match*At` function is the anchored form of one `re.search` pattern of
`_repair_json`; `reSearch` supplies Python's leftmost-match scan.  `\w` and
`\d` are modelled over ASCII (all inputs here are ASCII). -/

def isWordChar (c : Char) : Bool := c.isAlphanum || c = '_'

def matchLit : List Char → List Char → Option (List Char)
  | [], cs => some cs
  | _ :: _, [] => none
  | l :: ls, c :: cs => if c = l then matchLit ls cs else none

/-- Leftmost-match search: try the anchored matcher at every position. -/
def reSearch {α : Type} (m : List Char → Option α) : List Char → Option α
  | [] => m []
  | c :: rest =>
    match m (c :: rest) with
    | some r => some r
    | none => reSearch m rest

/-- A maximal nonempty run of characters satisfying `p` (regex `p+`). -/
def takeRun1 (p : Char → Bool) (cs : List Char) : Option (List Char × List Char) :=
  let run := cs.takeWhile p
  if run.isEmpty then none else some (run, cs.drop run.length)

/-- `"action"\s*:\s*"(\w+)"` (line 271). -/
def matchActionAt (cs : List Char) : Option String := do
  let cs ← matchLit "\"action\"".data cs
  let cs := cs.dropWhile isPySpace
  let cs ← matchLit [':'] cs
  let cs := cs.dropWhile isPySpace
  let cs ← matchLit ['"'] cs
  let (w, cs) ← takeRun1 isWordChar cs
  let _ ← matchLit ['"'] cs
  some ⟨w⟩

/-- `"entity_id"\s*:\s*"([^"]+)"` (line 279). -/
def matchEntityAt (cs : List Char) : Option String := do
  let cs ← matchLit "\"entity_id\"".data cs
  let cs := cs.dropWhile isPySpace
  let cs ← matchLit [':'] cs
  let cs := cs.dropWhile isPySpace
  let cs ← matchLit ['"'] cs
  let (w, cs) ← takeRun1 (fun c => c ≠ '"') cs
  let _ ← matchLit ['"'] cs
  some ⟨w⟩

/-- `"(?:color|rgb_color|rgb)"\s*:\s*\[\s*(\d+)\s*,\s*(\d+)\s*,\s*(\d+)`
(line 286); Python tries the alternatives left to right. -/
def matchColorAt (cs : List Char) : Option (Nat × Nat × Nat) := do
  let cs ← match matchLit "\"color\"".data cs with
    | some r => some r
    | none => match matchLit "\"rgb_color\"".data cs with
      | some r => some r
      | none => matchLit "\"rgb\"".data cs
  let cs := cs.dropWhile isPySpace
  let cs ← matchLit [':'] cs
  let cs := cs.dropWhile isPySpace
  let cs ← matchLit ['['] cs
  let cs := cs.dropWhile isPySpace
  let (d1, cs) ← takeRun1 Char.isDigit cs
  let cs := cs.dropWhile isPySpace
  let cs ← matchLit [','] cs
  let cs := cs.dropWhile isPySpace
  let (d2, cs) ← takeRun1 Char.isDigit cs
  let cs := cs.dropWhile isPySpace
  let cs ← matchLit [','] cs
  let cs := cs.dropWhile isPySpace
  let (d3, _) ← takeRun1 Char.isDigit cs
  some (digitsToNat d1, digitsToNat d2, digitsToNat d3)

/-- `"brightness(?:_pct)?"\s*:\s*(\d+)` (line 292); the optional group is
tried greedily first. -/
def matchBrightnessAt (cs : List Char) : Option Nat := do
  let cs ← matchLit "\"brightness".data cs
  let cs ← match matchLit "_pct\"".data cs with
    | some r => some r
    | none => matchLit ['"'] cs
  let cs := cs.dropWhile isPySpace
  let cs ← matchLit [':'] cs
  let cs := cs.dropWhile isPySpace
  let (d, _) ← takeRun1 Char.isDigit cs
  some (digitsToNat d)

/-- `"(?:state|service)"\s*:\s*"(\w+)"` (line 298). -/
def matchStateAt (cs : List Char) : Option String := do
  let cs ← match matchLit "\"state\"".data cs with
    | some r => some r
    | none => matchLit "\"service\"".data cs
  let cs := cs.dropWhile isPySpace
  let cs ← matchLit [':'] cs
  let cs := cs.dropWhile isPySpace
  let cs ← matchLit ['"'] cs
  let (w, cs) ← takeRun1 isWordChar cs
  let _ ← matchLit ['"'] cs
  some ⟨w⟩

/-- `"(?:type|sub_type)"\s*:\s*"(\w+)"` (line 309). -/
def matchTypeAt (cs : List Char) : Option String := do
  let cs ← match matchLit "\"type\"".data cs with
    | some r => some r
    | none => matchLit "\"sub_type\"".data cs
  let cs := cs.dropWhile isPySpace
  let cs ← matchLit [':'] cs
  let cs := cs.dropWhile isPySpace
  let cs ← matchLit ['"'] cs
  let (w, cs) ← takeRun1 isWordChar cs
  let _ ← matchLit ['"'] cs
  some ⟨w⟩

/-- `re.findall(r'\{[^{}]*\}', ...)`: non-overlapping matches of an opening
brace, non-brace characters, and a closing brace, scanning left to right. -/
def reFindallSimple : Nat → List Char → List (List Char)
  | 0, _ => []
  | _, [] => []
  | fuel + 1, c :: rest =>
    if c = lbrace then
      let run := rest.takeWhile (fun x => x ≠ lbrace && x ≠ rbrace)
      match rest.drop run.length with
      | r :: tail =>
        if r = rbrace then (lbrace :: (run ++ [rbrace])) :: reFindallSimple fuel tail
        else reFindallSimple fuel (r :: tail)
      | [] => []
    else reFindallSimple fuel rest

/-- `re.findall(r'\{.*?\}', ..., re.DOTALL)`: lazily from each opening brace
to the nearest closing brace. -/
def reFindallLazy : Nat → List Char → List (List Char)
  | 0, _ => []
  | _, [] => []
  | fuel + 1, c :: rest =>
    if c = lbrace then
      let run := rest.takeWhile (fun x => x ≠ rbrace)
      match rest.drop run.length with
      | r :: tail => (lbrace :: (run ++ [r])) :: reFindallLazy fuel tail
      | [] => []
    else reFindallLazy fuel rest

/-! ## `DeviceController._repair_json` and `_parse_llm_response` -/

/-- `entity_id.split('.')[0] if '.' in entity_id else "light"` (line 319). -/
def domainFromEntityId (eid : String) : String :=
  if eid.data.contains '.' then ⟨eid.data.takeWhile (fun c => c ≠ '.')⟩ else "light"

/-- `DeviceController._repair_json` (lines 267-345): regex-extract the pieces
of a command from raw text and synthesize a minimal command object. -/
def repair_json (text : List Char) : Option JValue :=
  let action : Option String :=
    match reSearch matchActionAt text with
    | some a => if a = "cont" ∨ a = "ctrl" then some "control" else some a
    | none => none
  let entity_id := reSearch matchEntityAt text
  let rgb_color := reSearch matchColorAt text
  let brightness := reSearch matchBrightnessAt text
  let service : String :=
    match reSearch matchStateAt text with
    | some sv =>
      let sl := pyLower sv
      if sl = "off" ∨ sl = "aus" ∨ sl = "turn_off" then "turn_off"
      else if sl = "toggle" ∨ sl = "umschalten" then "toggle"
      else "turn_on"
    | none => "turn_on"
  if action = some "query" then
    let qt := match reSearch matchTypeAt text with
      | some tv => tv
      | none => "temperatures"
    some (.obj [("action", .str "query"), ("query_type", .str "status"),
                ("sub_type", .str qt)])
  else
    match entity_id with
    | some eid =>
      let dataFields : List (String × JValue) :=
        (match rgb_color with
          | some rgb => [("rgb_color", JValue.arr
              [.num (rgb.1 : Rat), .num (rgb.2.1 : Rat), .num (rgb.2.2 : Rat)])]
          | none => []) ++
        (match brightness with
          | some bv =>
            if 100 < bv then [("brightness_pct", JValue.num ((bv * 100 / 255 : Nat) : Rat))]
            else [("brightness_pct", JValue.num (bv : Rat))]
          | none => [])
      some (.obj [("action", .str "control"),
                  ("domain", .str (domainFromEntityId eid)),
                  ("entity_id", .str eid),
                  ("service", .str service),
                  ("data", .obj dataFields)])
    | none => none

/-- Key membership test on a parsed object (`"action" in parsed`). -/
def objHasKey (k : String) (kvs : List (String × JValue)) : Bool :=
  (alGet k kvs).isSome

/-- The candidate loop of `_parse_llm_response` (lines 242-250): accept the
first brace-extracted candidate that parses to an object containing an
`action` or `entity_id` key. -/
def firstGoodCandidate : List (List Char) → Option JValue
  | [] => none
  | c :: rest =>
    match json_loads c with
    | some (JValue.obj kvs) =>
      if objHasKey "action" kvs || objHasKey "entity_id" kvs then some (.obj kvs)
      else firstGoodCandidate rest
    | _ => firstGoodCandidate rest

def pyStripChars (cs : List Char) : List Char :=
  ((cs.dropWhile isPySpace).reverse.dropWhile isPySpace).reverse

/-- The two fence-stripping substitutions `re.sub(r'^```(?:json)?\s*', ...)`
and `re.sub(r'\s*```$', ...)` of lines 232-233 (applied to already-stripped
text, so `$` is the true end). -/
def stripFences (cs : List Char) : List Char :=
  let cs1 :=
    match matchLit [btick, btick, btick] cs with
    | some r =>
      let r2 := match matchLit ['j', 's', 'o', 'n'] r with
        | some rj => rj
        | none => r
      r2.dropWhile isPySpace
    | none => cs
  match matchLit [btick, btick, btick] cs1.reverse with
  | some rr => (rr.dropWhile isPySpace).reverse
  | none => cs1

/-- `DeviceController._parse_llm_response` (lines 226-265): strip, remove
markdown fences, strip again, try the two brace patterns, then the whole text
as JSON (any object accepted), then the JSON repair. -/
def parse_llm_response (response : String) : Option JValue :=
  let clean := pyStripChars (stripFences (pyStripChars response.data))
  let cands := reFindallSimple (clean.length + 1) clean
    ++ reFindallLazy (clean.length + 1) clean
  match firstGoodCandidate cands with
  | some v => some v
  | none =>
    match json_loads clean with
    | some (JValue.obj kvs) => some (.obj kvs)
    | _ => repair_json clean

/-! ## Claim C1 -/

/-- Claim C1 counterexample: on the raw reply consisting only of
`action:"cont", entity_id:"light.kitchen", color:[0,255,0]` — with unquoted
keys, exactly as the claim writes it — the parsing pipeline yields no command
at all: every regex of `_repair_json` requires the key names to be enclosed
in double quotes, so the repair extracts neither an action nor an entity id
and returns `None`. -/
theorem repair_fallback_unquoted_counterexample :
    parse_llm_response "action:\"cont\", entity_id:\"light.kitchen\", color:[0,255,0]"
      = none := rfl

/-- Claim C1 (amended): when the keys are quoted —
`"action":"cont", "entity_id":"light.kitchen", "color":[0,255,0]`, still
invalid JSON as a whole — the pipeline falls through to the JSON repair and
yields a `control` command on `light.kitchen` whose data carries
`rgb_color = [0, 255, 0]`, with the abbreviated action `cont` canonicalized
to `control`. -/
theorem repair_fallback_quoted_keys :
    parse_llm_response
        "\"action\":\"cont\", \"entity_id\":\"light.kitchen\", \"color\":[0,255,0]"
      = some (JValue.obj
          [("action", .str "control"),
           ("domain", .str "light"),
           ("entity_id", .str "light.kitchen"),
           ("service", .str "turn_on"),
           ("data", .obj [("rgb_color", JValue.arr [.num 0, .num 255, .num 0])])]) := by
  with_unfolding_all rfl

/-! ## `DeviceController._normalize_service` and `_normalize_service_data` -/

/-- Python `int(x)` on an exact rational: truncation toward zero. -/
def pyInt (q : Rat) : Int := if q < 0 then ⌈q⌉ else ⌊q⌋

/-- `isinstance(value, (int, float))` — Python bools are ints. -/
def jvAsNum : JValue → Option Rat
  | .num q => some q
  | .bool b => some (if b then 1 else 0)
  | _ => none

/-- Python `int("...")`: optional surrounding whitespace, optional sign,
decimal digits only. -/
def parseIntStr (s : String) : Option Int :=
  let cs := pyStripChars s.data
  let signed : Bool × List Char :=
    match cs with
    | '-' :: r => (true, r)
    | '+' :: r => (false, r)
    | _ => (false, cs)
  if signed.2.isEmpty ∨ ¬ signed.2.all Char.isDigit then none
  else some (if signed.1 then -(digitsToNat signed.2 : Int) else (digitsToNat signed.2 : Int))

/-- Python `float("...")`: optional whitespace and sign, digits with an
optional fractional part (exponents, `inf` and `nan` are not modelled). -/
def parseFloatStr (s : String) : Option Rat :=
  let cs := pyStripChars s.data
  let signed : Bool × List Char :=
    match cs with
    | '-' :: r => (true, r)
    | '+' :: r => (false, r)
    | _ => (false, cs)
  let body := signed.2
  let intDigits := body.takeWhile Char.isDigit
  let rest := body.drop intDigits.length
  let parsed : Option Rat :=
    match rest with
    | [] => if intDigits.isEmpty then none else some (digitsToNat intDigits : Rat)
    | '.' :: fr =>
      let fracDigits := fr.takeWhile Char.isDigit
      if ¬ (fr.drop fracDigits.length).isEmpty then none
      else if intDigits.isEmpty ∧ fracDigits.isEmpty then none
      else some ((digitsToNat intDigits : Rat)
        + (digitsToNat fracDigits : Rat) / ((10 : Rat) ^ fracDigits.length))
    | _ => none
  match parsed with
  | some q => some (if signed.1 then -q else q)
  | none => none

/-- Python `int(v)` on a JSON value (used for the rgb component list). -/
def jvToInt : JValue → Option Int
  | .num q => some (pyInt q)
  | .bool b => some (if b then 1 else 0)
  | .str s => parseIntStr s
  | _ => none

/-- Python `float(v)` on a JSON value (used for the temperature field). -/
def jvToFloat : JValue → Option Rat
  | .num q => some q
  | .bool b => some (if b then 1 else 0)
  | .str s => parseFloatStr s
  | _ => none

/-- Python `str(v)` (used for the hvac-mode field; only string payloads —
the case this pipeline actually sends — are rendered exactly). -/
def pyStr : JValue → String
  | .str s => s
  | .num q => if q.den = 1 then toString q.num else toString q
  | .bool b => if b then "True" else "False"
  | .null => "None"
  | .arr _ => "[...]"
  | .obj _ => "[...]"

/-- `DeviceController._normalize_service` (lines 631-666). -/
def normalize_service (service : Option String) : String :=
  match service with
  | none => "turn_on"
  | some s =>
    if s = "" then "turn_on"
    else
      let sl := pyStrip (pyLower s)
      if sl = "on" ∨ sl = "an" ∨ sl = "ein" ∨ sl = "einschalten" ∨ sl = "turn_on" then
        "turn_on"
      else if sl = "off" ∨ sl = "aus" ∨ sl = "ausschalten" ∨ sl = "turn_off" then
        "turn_off"
      else if sl = "toggle" ∨ sl = "umschalten" ∨ sl = "wechseln" then "toggle"
      else if sl = "set_temperature" ∨ sl = "set_hvac_mode" ∨ sl = "set_position"
          ∨ sl = "open_cover" ∨ sl = "close_cover" ∨ sl = "stop_cover" then sl
      else s

/-- The branch of `_normalize_service_data`'s if-chain selected by a
(lower-cased) data key (lines 675-735, in source order). -/
inductive DataKeyKind where
  | rgb
  | brightness
  | brightnessPct
  | colorTemp
  | colorTempKelvin
  | temperature
  | hvacMode
  | position
  | volume
  | other

def classifyDataKey (kl : String) : DataKeyKind :=
  if kl = "rgb" ∨ kl = "color" ∨ kl = "rgb_color" ∨ kl = "farbe" then .rgb
  else if kl = "brightness" then .brightness
  else if kl = "brightness_pct" ∨ kl = "helligkeit" then .brightnessPct
  else if kl = "color_temp" then .colorTemp
  else if kl = "color_temp_kelvin" ∨ kl = "kelvin" ∨ kl = "farbtemperatur" then
    .colorTempKelvin
  else if kl = "temperature" ∨ kl = "temperatur" ∨ kl = "temp" then .temperature
  else if kl = "hvac_mode" ∨ kl = "mode" ∨ kl = "modus" then .hvacMode
  else if kl = "position" ∨ kl = "pos" then .position
  else if kl = "volume" ∨ kl = "volume_level" ∨ kl = "lautstärke" then .volume
  else .other

/-- The per-item loop of `_normalize_service_data` (lines 675-735).  `none`
models a raised exception (`int`/`float` on an unconvertible value), which
the silent executor turns into a failure. -/
def normalize_service_data_loop :
    List (String × JValue) → List (String × JValue) → Option (List (String × JValue))
  | [], result => some result
  | (key, value) :: rest, result =>
    match classifyDataKey (pyLower key) with
    | .rgb =>
      match value with
      | .arr xs =>
        if 3 ≤ xs.length then
          match (xs.take 3).mapM jvToInt with
          | some ns =>
            normalize_service_data_loop rest
              (alSet "rgb_color" (.arr (ns.map (fun n => JValue.num (n : Rat)))) result)
          | none => none
        else normalize_service_data_loop rest result
      | _ => normalize_service_data_loop rest result
    | .brightness =>
      match jvAsNum value with
      | some v =>
        if 100 < v then
          normalize_service_data_loop rest
            (alSet "brightness_pct"
              (.num ((max 1 (min 100 (pyInt (v / 255 * 100))) : Int) : Rat)) result)
        else
          normalize_service_data_loop rest
            (alSet "brightness_pct" (.num ((max 1 (min 100 (pyInt v)) : Int) : Rat)) result)
      | none => normalize_service_data_loop rest result
    | .brightnessPct =>
      match jvAsNum value with
      | some v =>
        normalize_service_data_loop rest
          (alSet "brightness_pct" (.num ((max 1 (min 100 (pyInt v)) : Int) : Rat)) result)
      | none => normalize_service_data_loop rest result
    | .colorTemp =>
      match jvAsNum value with
      | some v =>
        if 0 < v then
          normalize_service_data_loop rest
            (alSet "color_temp_kelvin" (.num ((pyInt (1000000 / v) : Int) : Rat)) result)
        else normalize_service_data_loop rest result
      | none => normalize_service_data_loop rest result
    | .colorTempKelvin =>
      match jvAsNum value with
      | some v =>
        normalize_service_data_loop rest
          (alSet "color_temp_kelvin" (.num ((pyInt v : Int) : Rat)) result)
      | none => normalize_service_data_loop rest result
    | .temperature =>
      match jvToFloat value with
      | some f => normalize_service_data_loop rest (alSet "temperature" (.num f) result)
      | none => none
    | .hvacMode =>
      normalize_service_data_loop rest (alSet "hvac_mode" (.str (pyStr value)) result)
    | .position =>
      match jvAsNum value with
      | some v =>
        normalize_service_data_loop rest
          (alSet "position" (.num ((max 0 (min 100 (pyInt v)) : Int) : Rat)) result)
      | none => normalize_service_data_loop rest result
    | .volume =>
      match jvAsNum value with
      | some v =>
        if 1 < v then
          normalize_service_data_loop rest (alSet "volume_level" (.num (v / 100)) result)
        else normalize_service_data_loop rest (alSet "volume_level" (.num v) result)
      | none => normalize_service_data_loop rest result
    | .other =>
      normalize_service_data_loop rest (alSet key value result)

/-- `DeviceController._normalize_service_data` (lines 668-737). -/
def normalize_service_data (data : List (String × JValue)) :
    Option (List (String × JValue)) :=
  normalize_service_data_loop data []

/-! ## Claims C4 and C5 -/

/-- Claim C4: a numeric `brightness` value `v` is renamed to
`brightness_pct`; for `v > 100` the result is the round-down of
`v / 255 * 100` clamped to `[1, 100]` (so 128 becomes 50), and for `v ≤ 100`
the value passes through clamped to `[1, 100]` (so 50 stays exactly 50). -/
theorem brightness_normalization (v : Int) :
    normalize_service_data [("brightness", JValue.num (v : Rat))]
      = some [("brightness_pct", JValue.num
          ((if 100 < v then max 1 (min 100 ⌊(v : Rat) / 255 * 100⌋)
            else max 1 (min 100 v) : Int) : Rat))]
    ∧ normalize_service_data [("brightness", JValue.num 128)]
      = some [("brightness_pct", JValue.num 50)]
    ∧ normalize_service_data [("brightness", JValue.num 50)]
      = some [("brightness_pct", JValue.num 50)] := by
  refine ⟨?_, by with_unfolding_all rfl, by with_unfolding_all rfl⟩
  show normalize_service_data_loop _ _ = _
  simp only [normalize_service_data_loop,
    show classifyDataKey (pyLower "brightness") = DataKeyKind.brightness from rfl,
    jvAsNum, alSet]
  by_cases hv : (100 : Rat) < (v : Rat)
  · rw [if_pos hv, if_pos (by exact_mod_cast hv : (100 : Int) < v)]
    have hq : (0 : Rat) ≤ (v : Rat) / 255 * 100 := by
      have hv0 : (0 : Rat) < (v : Rat) := lt_trans (by norm_num) hv
      positivity
    rw [show pyInt ((v : Rat) / 255 * 100) = ⌊(v : Rat) / 255 * 100⌋ from by
      simp [pyInt, not_lt.mpr hq]]
  · rw [if_neg hv, if_neg (by exact_mod_cast hv : ¬ (100 : Int) < v)]
    rw [show pyInt (v : Rat) = v from by simp [pyInt]]

/-- Claim C5 counterexample: a `volume` of 200 is *not* range-clamped to
`[0, 100]` before rescaling — the code only divides by 100, so the resulting
`volume_level` is 2, outside the `[0, 1]` range the claim asserts. -/
theorem volume_clamp_counterexample :
    normalize_service_data [("volume", JValue.num 200)]
      = some [("volume_level", JValue.num 2)]
    ∧ ¬ ((2 : Rat) ≤ 1) :=
  ⟨by with_unfolding_all rfl, by norm_num⟩

/-- Claim C5 (amended): a numeric `position` is coerced to an integer and
clamped to `[0, 100]`; a numeric `volume` becomes `volume_level`, divided by
100 when it exceeds 1 and passed through unchanged otherwise — with no range
clamping of the volume. -/
theorem position_volume_normalization (p v : Rat) :
    normalize_service_data [("position", JValue.num p)]
      = some [("position", JValue.num ((max 0 (min 100 (pyInt p)) : Int) : Rat))]
    ∧ normalize_service_data [("volume", JValue.num v)]
      = some [("volume_level", JValue.num (if 1 < v then v / 100 else v))] := by
  constructor
  · show normalize_service_data_loop _ _ = _
    simp only [normalize_service_data_loop,
      show classifyDataKey (pyLower "position") = DataKeyKind.position from rfl,
      jvAsNum, alSet]
  · show normalize_service_data_loop _ _ = _
    simp only [normalize_service_data_loop,
      show classifyDataKey (pyLower "volume") = DataKeyKind.volume from rfl,
      jvAsNum, alSet]
    split_ifs <;> rfl

/-! ## Command dispatch and execution (`execute_command` and helpers) -/

/-- `command.get(k)` on a parsed command object. -/
def objGet (k : String) : JValue → Option JValue
  | .obj kvs => alGet k kvs
  | _ => none

/-- `command.get(k)` restricted to string values (the only shape the claims
exercise; a non-string value would raise in Python and surface as an error). -/
def objGetStr (cmd : JValue) (k : String) : Option String :=
  match objGet k cmd with
  | some (.str s) => some s
  | _ => none

/-- `command.get(k, default)` for string fields. -/
def objGetStrD (cmd : JValue) (k d : String) : String :=
  match objGetStr cmd k with
  | some s => s
  | none => d

/-- The abbreviated-action canonicalization of `execute_command`
(lines 205-210). -/
def canonicalAction (a : String) : String :=
  if a = "cont" ∨ a = "ctrl" ∨ a = "control" ∨ a = "c" then "control"
  else if a = "query" ∨ a = "q" ∨ a = "ask" ∨ a = "get" then "query"
  else if a = "control_multiple" ∨ a = "multi" ∨ a = "multiple" ∨ a = "batch" then
    "control_multiple"
  else a

/-- Which execution branch `execute_command` selects (lines 202-220). -/
inductive Dispatch where
  | control
  | controlMultiple
  | query
  | unknown (a : String)

def dispatchCommand (cmd : JValue) : Dispatch :=
  let action := canonicalAction (pyLower (objGetStrD cmd "action" ""))
  if action = "control" then .control
  else if action = "control_multiple" then .controlMultiple
  else if action = "query" then .query
  else .unknown action

/-- `command.get("commands", [])` (line 215); a non-list value would raise
during iteration and is not modelled. -/
def commandsOf (cmd : JValue) : List JValue :=
  match objGet "commands" cmd with
  | some (.arr xs) => xs
  | _ => []

/-- Where `_handle_query` routes a query command (lines 349-375). -/
inductive QueryRoute where
  | sensor (entity_ids : Option JValue)
  | status (effective : String)
  | unknown

def handle_query_route (cmd : JValue) : QueryRoute :=
  let query_type := objGetStrD cmd "query_type" ""
  let sub_type := objGetStrD cmd "sub_type" ""
  let sub_type :=
    if sub_type = "" then
      match objGet "data" cmd with
      | some (.obj dkvs) =>
        let t := match alGet "type" dkvs with
          | some (.str s) => s
          | _ => ""
        if t = "" then
          match alGet "sub_type" dkvs with
          | some (.str s) => s
          | _ => ""
        else t
      | _ => sub_type
    else sub_type
  let sub_type := if sub_type = "" then objGetStrD cmd "type" "" else sub_type
  if query_type = "sensor" then .sensor (objGet "entity_ids" cmd)
  else
    let effective := if sub_type = "" then query_type else sub_type
    if effective = "" then .unknown else .status effective

/-- The execution environment a single command runs against: the key set of
`get_controlled_entities(include_sensors=False)` and the outcome of
`hass.services.async_call` (`true` = acknowledged, `false` = raised). -/
structure ExecEnv where
  controlled : List String
  callOk : String → String → List (String × JValue) → Bool

/-- `DeviceController._execute_single_command_silent` (lines 592-627):
returns `false` on a missing or falsy domain/entity id, a non-controllable
entity, an exception during data normalization, or a failing service call. -/
def execute_single_command_silent (env : ExecEnv) (cmd : JValue) : Bool :=
  let domain0 := objGetStr cmd "domain"
  let entity_id := objGetStr cmd "entity_id"
  let service := objGetStrD cmd "service" "turn_on"
  let sdata := match objGet "data" cmd with
    | some (.obj kvs) => kvs
    | _ => []
  let domainFalsy := domain0 = none ∨ domain0 = some ""
  let domain := if domainFalsy then
      match entity_id with
      | some eid =>
        if eid ≠ "" ∧ eid.data.contains '.' then
          some (⟨eid.data.takeWhile (fun ch => ch ≠ '.')⟩ : String)
        else domain0
      | none => domain0
    else domain0
  match domain, entity_id with
  | some d, some eid =>
    if d = "" ∨ eid = "" then false
    else if ¬ env.controlled.contains eid then false
    else
      match normalize_service_data sdata with
      | none => false
      | some nd =>
        env.callOk d (normalize_service (some service)) (alSet "entity_id" (.str eid) nd)
  | _, _ => false

/-- `DeviceController._execute_multiple_commands_parallel` (lines 575-590).
`asyncio.gather` awaits independent coroutines; the pass/fail outcome of each
command is independent of its siblings, so the concurrent fan-out is modelled
as a map. -/
def execute_multiple_commands_parallel (env : ExecEnv) (commands : List JValue) : String :=
  if commands.isEmpty then "❌ Keine Befehle"
  else
    let results := commands.map (execute_single_command_silent env)
    let success := results.count true
    let failed := commands.length - success
    if success = commands.length then
      "✅ " ++ toString success ++ " Gerät(e) erfolgreich gesteuert!"
    else if 0 < success then
      "⚠️ " ++ toString success ++ " von " ++ toString commands.length
        ++ " erfolgreich (" ++ toString failed ++ " fehlgeschlagen)"
    else
      "❌ Alle " ++ toString commands.length ++ " Befehle fehlgeschlagen"

/-! ## Claims C6 and C7 -/

/-- Claim C6: every command of a non-empty batch is executed (one independent
pass/fail result per command), and the summary message reports the success
and failure counts, classified as all-succeeded / partial / all-failed. -/
theorem control_multiple_accounting (env : ExecEnv) (commands : List JValue)
    (hne : commands ≠ []) :
    (commands.map (execute_single_command_silent env)).length = commands.length
    ∧ (∀ i (hi : i < commands.length),
        (commands.map (execute_single_command_silent env))[i]?
          = some (execute_single_command_silent env commands[i]))
    ∧ ((commands.map (execute_single_command_silent env)).count true = commands.length →
        execute_multiple_commands_parallel env commands
          = "✅ " ++ toString ((commands.map (execute_single_command_silent env)).count true)
            ++ " Gerät(e) erfolgreich gesteuert!")
    ∧ (0 < (commands.map (execute_single_command_silent env)).count true →
        (commands.map (execute_single_command_silent env)).count true < commands.length →
        execute_multiple_commands_parallel env commands
          = "⚠️ " ++ toString ((commands.map (execute_single_command_silent env)).count true)
            ++ " von " ++ toString commands.length ++ " erfolgreich ("
            ++ toString (commands.length
                  - (commands.map (execute_single_command_silent env)).count true)
            ++ " fehlgeschlagen)")
    ∧ ((commands.map (execute_single_command_silent env)).count true = 0 →
        execute_multiple_commands_parallel env commands
          = "❌ Alle " ++ toString commands.length ++ " Befehle fehlgeschlagen") := by
  obtain ⟨c0, cs, rfl⟩ : ∃ c0 cs, commands = c0 :: cs := by
    cases commands with
    | nil => exact absurd rfl hne
    | cons a l => exact ⟨a, l, rfl⟩
  have hunfold : execute_multiple_commands_parallel env (c0 :: cs)
      = (if ((c0 :: cs).map (execute_single_command_silent env)).count true
            = (c0 :: cs).length
         then "✅ "
            ++ toString (((c0 :: cs).map (execute_single_command_silent env)).count true)
            ++ " Gerät(e) erfolgreich gesteuert!"
         else if 0 < ((c0 :: cs).map (execute_single_command_silent env)).count true
         then "⚠️ "
            ++ toString (((c0 :: cs).map (execute_single_command_silent env)).count true)
            ++ " von " ++ toString (c0 :: cs).length ++ " erfolgreich ("
            ++ toString ((c0 :: cs).length
                - ((c0 :: cs).map (execute_single_command_silent env)).count true)
            ++ " fehlgeschlagen)"
         else "❌ Alle " ++ toString (c0 :: cs).length ++ " Befehle fehlgeschlagen") := rfl
  refine ⟨by simp, ?_, ?_, ?_, ?_⟩
  · intro i hi
    rw [List.getElem?_eq_getElem (by simpa using hi)]
    simp only [List.getElem_map]
  · intro h
    rw [hunfold, if_pos h]
  · intro h1 h2
    rw [hunfold, if_neg (by omega), if_pos h1]
  · intro h
    have hlen : 0 < (c0 :: cs).length := by simp
    rw [hunfold, if_neg (by omega), if_neg (by omega)]

/-- The environment and batch of the C6 witness: lights `a` and `b` are
controllable and the platform acknowledges every call; the middle command
targets an entity outside the controllable set. -/
def env0 : ExecEnv :=
  { controlled := ["light.a", "light.b"], callOk := fun _ _ _ => true }

def cmdLightA : JValue :=
  .obj [("action", .str "control"), ("domain", .str "light"),
        ("entity_id", .str "light.a"), ("service", .str "turn_on"), ("data", .obj [])]

def cmdLightZ : JValue :=
  .obj [("action", .str "control"), ("domain", .str "light"),
        ("entity_id", .str "light.zzz"), ("service", .str "turn_on"), ("data", .obj [])]

def cmdLightB : JValue :=
  .obj [("action", .str "control"), ("domain", .str "light"),
        ("entity_id", .str "light.b"), ("service", .str "turn_on"), ("data", .obj [])]

/-- Witness for C6: of three commands where one targets a non-controllable
entity, two succeed and one fails, and the partial summary reports exactly
that. -/
theorem control_multiple_accounting_witness :
    execute_multiple_commands_parallel env0 [cmdLightA, cmdLightZ, cmdLightB]
      = "⚠️ 2 von 3 erfolgreich (1 fehlgeschlagen)" := by
  have hc : ([cmdLightA, cmdLightZ, cmdLightB].map
      (execute_single_command_silent env0)).count true = 2 := by decide
  have h := (control_multiple_accounting env0 [cmdLightA, cmdLightZ, cmdLightB]
    (by simp)).2.2.2.1 (by rw [hc]; norm_num) (by rw [hc]; simp)
  rw [h, hc]
  rfl

/-- The abbreviated action tokens of `execute_command` (lines 205-210) with
their canonical forms. -/
def abbrevTable : List (String × String) :=
  [("cont", "control"), ("ctrl", "control"), ("c", "control"),
   ("q", "query"), ("ask", "query"), ("get", "query"),
   ("multi", "control_multiple"), ("multiple", "control_multiple"),
   ("batch", "control_multiple")]

/-- Claim C7: a parsed command whose action field is one of the abbreviated
tokens `cont`, `ctrl`, `c`, `q`, `ask`, `get`, `multi`, `multiple` or `batch`
is executed exactly like the same command with the corresponding canonical
action: the selected branch, the single-command execution outcome, the batch
command list and the query routing all coincide — for command objects from
any parse path, the repair path's output included. -/
theorem action_synonyms (a c : String) (h : (a, c) ∈ abbrevTable)
    (kvs : List (String × JValue)) :
    dispatchCommand (.obj (("action", .str a) :: kvs))
      = dispatchCommand (.obj (("action", .str c) :: kvs))
    ∧ dispatchCommand (.obj (("action", .str a) :: kvs))
      = (if c = "control" then Dispatch.control
         else if c = "query" then Dispatch.query else Dispatch.controlMultiple)
    ∧ (∀ env : ExecEnv,
        execute_single_command_silent env (.obj (("action", .str a) :: kvs))
          = execute_single_command_silent env (.obj (("action", .str c) :: kvs)))
    ∧ commandsOf (.obj (("action", .str a) :: kvs))
      = commandsOf (.obj (("action", .str c) :: kvs))
    ∧ handle_query_route (.obj (("action", .str a) :: kvs))
      = handle_query_route (.obj (("action", .str c) :: kvs)) := by
  fin_cases h <;> exact ⟨rfl, rfl, fun env => rfl, rfl, rfl⟩

/-- Witness for C7: the abbreviated action `q` routes a status query exactly
like `query` does. -/
theorem action_synonyms_witness :
    dispatchCommand (.obj [("action", .str "q"), ("sub_type", .str "temperatures")])
      = dispatchCommand (.obj [("action", .str "query"), ("sub_type", .str "temperatures")])
    ∧ dispatchCommand (.obj [("action", .str "q"), ("sub_type", .str "temperatures")])
      = Dispatch.query
    ∧ handle_query_route (.obj [("action", .str "q"), ("sub_type", .str "temperatures")])
      = handle_query_route
          (.obj [("action", .str "query"), ("sub_type", .str "temperatures")]) := by
  have h := action_synonyms "q" "query" (by decide) [("sub_type", .str "temperatures")]
  exact ⟨h.1, h.2.1, h.2.2.2.2⟩

/-! ## Entity resolution and its process-wide cache (`get_controlled_entities`)

The Home Assistant registries are modelled as explicit data; `hash(tuple(...))`
is an abstract function parameter (its only observable use is key equality). -/

def CONTROL_DOMAINS : List String :=
  ["light", "switch", "climate", "cover", "fan", "media_player", "lock", "scene",
   "script", "automation", "input_boolean", "input_select", "input_number", "vacuum",
   "humidifier", "water_heater", "remote", "button", "siren"]

def SENSOR_DOMAINS : List String :=
  ["sensor", "binary_sensor", "weather", "device_tracker", "person", "sun", "zone"]

/-- One entry of `hass.states.async_all()`. -/
structure HAState where
  entity_id : String
  state : String
  attributes : List (String × JValue)

/-- `state.domain`: the entity id's part before the dot. -/
def stateDomain (eid : String) : String :=
  ⟨eid.data.takeWhile (fun c => c ≠ '.')⟩

structure EntityEntry where
  entity_id : String
  area_id : Option String
  device_id : Option String

structure DeviceEntry where
  id : String
  area_id : Option String

structure AreaEntry where
  id : String
  name : String

structure Registry where
  states : List HAState
  entities : List EntityEntry
  devices : List DeviceEntry
  areas : List AreaEntry

def regGetEntity (reg : Registry) (eid : String) : Option EntityEntry :=
  reg.entities.find? (fun e => e.entity_id = eid)

def regGetDevice (reg : Registry) (did : String) : Option DeviceEntry :=
  reg.devices.find? (fun d => d.id = did)

def regGetArea (reg : Registry) (aid : String) : Option AreaEntry :=
  reg.areas.find? (fun a => a.id = aid)

/-- Python truthiness of an optional id string. -/
def optIdFalsy : Option String → Bool
  | none => true
  | some s => s = ""

/-- The entity → device area fallback shared by `get_controlled_entities`
(lines 83-88) and `_build_entity_info` (lines 107-112). -/
def resolvedAreaId (reg : Registry) (entry : EntityEntry) : Option String :=
  if optIdFalsy entry.area_id then
    match entry.device_id with
    | some did =>
      if did = "" then entry.area_id
      else
        match regGetDevice reg did with
        | some dev => dev.area_id
        | none => entry.area_id
    | none => entry.area_id
  else entry.area_id

/-- `DeviceController._filter_attributes` (lines 129-144). -/
def filter_attributes (domain : String) (attributes : List (String × JValue)) :
    List (String × JValue) :=
  let important : List String :=
    ["friendly_name"] ++
    (if domain = "light" then
      ["brightness", "rgb_color", "color_temp_kelvin", "supported_color_modes"]
     else if domain = "climate" then
      ["temperature", "current_temperature", "hvac_mode", "hvac_modes"]
     else if domain = "cover" then ["current_position"]
     else if domain = "media_player" then ["volume_level", "media_title", "source"]
     else if domain = "sensor" ∨ domain = "binary_sensor" then
      ["unit_of_measurement", "device_class", "state_class"]
     else [])
  attributes.filter (fun kv => important.contains kv.1)

structure EntityInfo where
  name : String
  state : String
  domain : String
  area : Option String
  attributes : List (String × JValue)
  unit : String

/-- `DeviceController._build_entity_info` (lines 101-127); non-string
friendly names and units are not modelled. -/
def build_entity_info (reg : Registry) (st : HAState) : EntityInfo :=
  let area_name : Option String :=
    match regGetEntity reg st.entity_id with
    | none => none
    | some entry =>
      match resolvedAreaId reg entry with
      | some aid =>
        if aid = "" then none
        else
          match regGetArea reg aid with
          | some a => some a.name
          | none => none
      | none => none
  let friendly_name := match alGet "friendly_name" st.attributes with
    | some (.str s) => s
    | _ => st.entity_id
  { name := friendly_name,
    state := st.state,
    domain := stateDomain st.entity_id,
    area := area_name,
    attributes := filter_attributes (stateDomain st.entity_id) st.attributes,
    unit := match alGet "unit_of_measurement" st.attributes with
      | some (.str s) => s
      | _ => "" }

/-- The static selection held by a `DeviceController`. -/
structure DCConfig where
  selected_entities : List String
  selected_areas : List String
  enable_sensors : Bool

/-- The loop over `hass.states.async_all()` in `get_controlled_entities`
(lines 67-91). -/
def computeLoop (reg : Registry) (dc : DCConfig) (allowed : List String) :
    List HAState → List (String × EntityInfo) → List (String × EntityInfo)
  | [], acc => acc
  | st :: rest, acc =>
    if ¬ allowed.contains (stateDomain st.entity_id) then
      computeLoop reg dc allowed rest acc
    else if dc.selected_entities.contains st.entity_id then
      computeLoop reg dc allowed rest (alSet st.entity_id (build_entity_info reg st) acc)
    else if ¬ dc.selected_areas.isEmpty then
      match regGetEntity reg st.entity_id with
      | some entry =>
        match resolvedAreaId reg entry with
        | some aid =>
          if aid ≠ "" ∧ dc.selected_areas.contains aid then
            computeLoop reg dc allowed rest
              (alSet st.entity_id (build_entity_info reg st) acc)
          else computeLoop reg dc allowed rest acc
        | none => computeLoop reg dc allowed rest acc
      | none => computeLoop reg dc allowed rest acc
    else computeLoop reg dc allowed rest acc

/-- The freshly computed controllable map. -/
def computeControlled (reg : Registry) (dc : DCConfig) (include_sensors : Bool) :
    List (String × EntityInfo) :=
  let allowed := if include_sensors ∧ dc.enable_sensors
    then CONTROL_DOMAINS ++ SENSOR_DOMAINS else CONTROL_DOMAINS
  computeLoop reg dc allowed reg.states []

/-- The class-level cache of `DeviceController` (lines 24-27). -/
structure EntityCacheState where
  entity_cache : Option (List (String × List (String × EntityInfo)))
  cache_time : Option Int

/-- The cache key
`f"{hash(tuple(selected_entities))}_{hash(tuple(selected_areas))}_{include_sensors}"`
(line 51). -/
def entityCacheKey (pyhash : List String → Int) (dc : DCConfig)
    (include_sensors : Bool) : String :=
  toString (pyhash dc.selected_entities) ++ "_" ++ toString (pyhash dc.selected_areas)
    ++ "_" ++ (if include_sensors then "True" else "False")

/-- `DeviceController.get_controlled_entities` (lines 47-99): serve from the
process-wide cache when it is fresh (strictly under 5 seconds old) and the
cached map under the key is non-empty; return an empty map without touching
the cache when both selection lists are empty; otherwise recompute, store
under the key and reset the cache timestamp. -/
def get_controlled_entities (pyhash : List String → Int) (reg : Registry)
    (dc : DCConfig) (include_sensors : Bool) (now : Int) (st : EntityCacheState) :
    List (String × EntityInfo) × EntityCacheState :=
  let key := entityCacheKey pyhash dc include_sensors
  let hit : Option (List (String × EntityInfo)) :=
    match st.entity_cache, st.cache_time with
    | some m, some ct =>
      if now - ct < 5 then
        match alGet key m with
        | some cached => if cached.isEmpty then none else some cached
        | none => none
      else none
    | _, _ => none
  match hit with
  | some cached => (cached, st)
  | none =>
    if dc.selected_entities.isEmpty ∧ dc.selected_areas.isEmpty then ([], st)
    else
      let controlled := computeControlled reg dc include_sensors
      let base := match st.entity_cache with
        | some m => m
        | none => []
      (controlled, { entity_cache := some (alSet key controlled base),
                     cache_time := some now })

/-! ## Claim C9 -/

def regEmpty : Registry := { states := [], entities := [], devices := [], areas := [] }

/-- Claim C9 counterexample: a resolution call with both selection lists
empty returns an empty map and stores nothing — the process-wide cache stays
`None`, contradicting "for every entity resolution call, the result is stored
in the cache under the key". -/
theorem entity_cache_no_store_counterexample :
    get_controlled_entities (fun _ => 0) regEmpty ⟨[], [], true⟩ true 0 ⟨none, none⟩
      = ([], ⟨none, none⟩)
    ∧ (get_controlled_entities (fun _ => 0) regEmpty ⟨[], [], true⟩ true 0
        ⟨none, none⟩).2.entity_cache = none :=
  ⟨rfl, rfl⟩

/-- The cache-consultation step of `get_controlled_entities` (lines 53-58):
the map served from the process-wide cache — present exactly when the cache
and its timestamp exist, the cache is strictly less than 5 seconds old, and
it holds a truthy (non-empty) map under the requested key. -/
def entity_cache_hit (pyhash : List String → Int) (dc : DCConfig) (inc : Bool)
    (now : Int) (st : EntityCacheState) : Option (List (String × EntityInfo)) :=
  let key := entityCacheKey pyhash dc inc
  match st.entity_cache, st.cache_time with
  | some m, some ct =>
    if now - ct < 5 then
      match alGet key m with
      | some cached => if cached.isEmpty then none else some cached
      | none => none
    else none
  | _, _ => none

/-- `get_controlled_entities`, factored: serve the cache hit when there is
one, otherwise return empty for an empty selection or compute-and-store. -/
theorem get_controlled_entities_eq (pyhash : List String → Int) (reg : Registry)
    (dc : DCConfig) (inc : Bool) (now : Int) (st : EntityCacheState) :
    get_controlled_entities pyhash reg dc inc now st
      = (match entity_cache_hit pyhash dc inc now st with
         | some cached => (cached, st)
         | none =>
           if dc.selected_entities.isEmpty ∧ dc.selected_areas.isEmpty then ([], st)
           else
             (computeControlled reg dc inc,
              { entity_cache := some (alSet (entityCacheKey pyhash dc inc)
                  (computeControlled reg dc inc) (st.entity_cache.getD [])),
                cache_time := some now })) := by
  obtain ⟨oc, otc⟩ := st
  cases oc <;> cases otc <;> rfl

/-- Claim C9 (amended): each resolution call first consults the process-wide
cache under the key built from the hashes of the two selection lists and the
`include_sensors` flag.  When the cache is strictly less than 5 seconds old
and holds a non-empty map under that key, that map is served and the cache is
left untouched (an empty cached map is never served — the final conjunct
characterizes the hit exactly).  On a cache miss — whatever its reason: cold
cache, stale timestamp, key absent, or empty cached map — a call with both
selection lists empty returns an empty map without touching the cache, and
every other call recomputes the controllable set, stores it under the key
and resets the process-wide timestamp. -/
theorem entity_cache_behavior (pyhash : List String → Int) (reg : Registry)
    (dc : DCConfig) (inc : Bool) (now : Int) (st : EntityCacheState) :
    (∀ cached, entity_cache_hit pyhash dc inc now st = some cached →
        get_controlled_entities pyhash reg dc inc now st = (cached, st))
    ∧ (entity_cache_hit pyhash dc inc now st = none →
        dc.selected_entities = [] → dc.selected_areas = [] →
        get_controlled_entities pyhash reg dc inc now st = ([], st))
    ∧ (entity_cache_hit pyhash dc inc now st = none →
        dc.selected_entities.isEmpty = false ∨ dc.selected_areas.isEmpty = false →
        get_controlled_entities pyhash reg dc inc now st
          = (computeControlled reg dc inc,
             { entity_cache := some (alSet (entityCacheKey pyhash dc inc)
                 (computeControlled reg dc inc) (st.entity_cache.getD [])),
               cache_time := some now }))
    ∧ (∀ cached, entity_cache_hit pyhash dc inc now st = some cached ↔
        (∃ m ct, st.entity_cache = some m ∧ st.cache_time = some ct
          ∧ now - ct < 5
          ∧ alGet (entityCacheKey pyhash dc inc) m = some cached
          ∧ cached.isEmpty = false)) := by
  refine ⟨?_, ?_, ?_, ?_⟩
  · intro cached h
    rw [get_controlled_entities_eq, h]
  · intro h h1 h2
    rw [get_controlled_entities_eq, h]
    simp [h1, h2]
  · intro h hsel
    have hcond : ¬ (dc.selected_entities.isEmpty ∧ dc.selected_areas.isEmpty) := by
      rcases hsel with hs | hs <;> simp [hs]
    rw [get_controlled_entities_eq, h]
    simp only []
    rw [if_neg hcond]
  · intro cached
    obtain ⟨oc, otc⟩ := st
    cases oc with
    | none => simp [entity_cache_hit]
    | some m =>
      cases otc with
      | none => simp [entity_cache_hit]
      | some ct =>
        simp only [entity_cache_hit]
        constructor
        · intro h
          by_cases hf : now - ct < 5
          · rw [if_pos hf] at h
            cases halg : alGet (entityCacheKey pyhash dc inc) m with
            | none =>
              rw [halg] at h
              dsimp only at h
              exact absurd h (by simp)
            | some c =>
              rw [halg] at h
              dsimp only at h
              by_cases he : c.isEmpty
              · rw [if_pos he] at h
                exact absurd h (by simp)
              · rw [if_neg he] at h
                obtain rfl : c = cached := by simpa using h
                exact ⟨m, ct, rfl, rfl, hf, halg, by simpa using he⟩
          · rw [if_neg hf] at h
            exact absurd h (by simp)
        · rintro ⟨m2, ct2, hm, hct, hf, halg, he⟩
          obtain rfl : m2 = m := by simpa using hm.symm
          obtain rfl : ct2 = ct := by simpa using hct.symm
          rw [if_pos hf, halg]
          dsimp only
          rw [if_neg (by simp [he])]

/-- The witness registry: a single light with a friendly name. -/
def reg1 : Registry :=
  { states := [{ entity_id := "light.kitchen", state := "on",
                 attributes := [("friendly_name", .str "Kitchen Light")] }],
    entities := [], devices := [], areas := [] }

def dc1 : DCConfig :=
  { selected_entities := ["light.kitchen"], selected_areas := [], enable_sensors := true }

def hash0 : List String → Int := fun _ => 0

/-- Witness for C9: a first call on a cold cache computes, stores and stamps
the cache; a second call under the same key 3 seconds later is served the
stored map with the state unchanged; a call 3 seconds later with the
`include_sensors` flag flipped (a fresh cache that lacks the requested key)
recomputes and restamps; and an empty-selection call on a cold cache touches
nothing. -/
theorem entity_cache_behavior_witness :
    (get_controlled_entities hash0 reg1 dc1 true 0 ⟨none, none⟩).2.cache_time = some 0
    ∧ get_controlled_entities hash0 reg1 dc1 true 3
        (get_controlled_entities hash0 reg1 dc1 true 0 ⟨none, none⟩).2
      = ((get_controlled_entities hash0 reg1 dc1 true 0 ⟨none, none⟩).1,
         (get_controlled_entities hash0 reg1 dc1 true 0 ⟨none, none⟩).2)
    ∧ (get_controlled_entities hash0 reg1 dc1 false 3
        (get_controlled_entities hash0 reg1 dc1 true 0 ⟨none, none⟩).2).2.cache_time
      = some 3
    ∧ get_controlled_entities hash0 regEmpty ⟨[], [], true⟩ true 0 ⟨none, none⟩
      = ([], ⟨none, none⟩) := by
  have hcold := (entity_cache_behavior hash0 reg1 dc1 true 0 ⟨none, none⟩).2.2.1
    (by rfl) (Or.inl (by decide))
  refine ⟨by rw [hcold], ?_, ?_, ?_⟩
  · rw [hcold]
    have hserve := (entity_cache_behavior hash0 reg1 dc1 true 3
      ⟨some (alSet (entityCacheKey hash0 dc1 true) (computeControlled reg1 dc1 true)
        ((none : Option (List (String × List (String × EntityInfo)))).getD [])),
       some 0⟩).1 (computeControlled reg1 dc1 true) (by rfl)
    rw [hserve]
  · rw [hcold]
    have hflip := (entity_cache_behavior hash0 reg1 dc1 false 3
      ⟨some (alSet (entityCacheKey hash0 dc1 true) (computeControlled reg1 dc1 true)
        ((none : Option (List (String × List (String × EntityInfo)))).getD [])),
       some 0⟩).2.2.1 (by rfl) (Or.inl (by decide))
    rw [hflip]
  · exact (entity_cache_behavior hash0 regEmpty ⟨[], [], true⟩ true 0
      ⟨none, none⟩).2.1 (by rfl) rfl rfl

end FreeLLM
